import Mathlib

/-!
# Verification of the sockio connection registry and message dispatcher

This file gives a shallow embedding of `src/sockio/connection_manager.py`
(`ConnectionManager`, `WebSocketConnection`) and
`src/sockio/message_handler.py` (`DispatchMessageHandler`), and proves or
refutes the specification claims about them.

Modelling conventions:
* Python `dict` is modelled as an insertion-ordered association list with
  unique keys (`Dict`); `d[k] = v` is `Dict.set`, `del d[k]` is `Dict.erase`.
* Python `set` is modelled as an insertion-ordered duplicate-free list
  (`addElem` is `set.add`, `removeElem` is `set.discard`).
* Timestamps are abstract `Nat` instants passed in by the caller
  (`datetime.now` at each operation); the transport handle, logging, and the
  auth session store (`update_websocket_session`) are not modelled as no
  claim depends on them.
* External collaborators are oracles: token verification
  (`auth_manager.authenticate_websocket`) is `String → Option String`
  (token to user id), the user store (`User.get` / `user.save`) is the
  `userStore` field, and `websocket.send` is a `Transport` function that
  may both mutate the state (interleavings at `await` points) and fail.
-/

namespace Sockio

/-- Association-list map with string keys mirroring a Python `dict`
(insertion ordered, unique keys). -/
abbrev Dict (V : Type) := List (String × V)

/-- `d.get(k)` / `d[k]` lookup. -/
def dGet (m : Dict V) (k : String) : Option V :=
  match m with
  | [] => none
  | (k', v) :: rest => if k' = k then some v else dGet rest k

/-- `d[k] = v`: replace the value in place if the key exists, else append. -/
def dSet (m : Dict V) (k : String) (v : V) : Dict V :=
  match m with
  | [] => [(k, v)]
  | (k', v') :: rest => if k' = k then (k, v) :: rest else (k', v') :: dSet rest k v

/-- `del d[k]`. -/
def dErase (m : Dict V) (k : String) : Dict V :=
  match m with
  | [] => []
  | (k', v') :: rest => if k' = k then dErase rest k else (k', v') :: dErase rest k

/-- `list(d.keys())`. -/
def dKeys (m : Dict V) : List String :=
  m.map (·.1)

@[simp] theorem dGet_nil (k : String) : dGet ([] : Dict V) k = none := rfl

@[simp] theorem dGet_set_self (m : Dict V) (k : String) (v : V) :
    dGet (dSet m k v) k = some v := by
  induction m with
  | nil => simp [dSet, dGet]
  | cons p rest ih =>
    obtain ⟨k', v'⟩ := p
    by_cases h : k' = k
    · subst h; simp [dSet, dGet]
    · simp [dSet, dGet, h, ih]

theorem dGet_set_ne (m : Dict V) (k k' : String) (v : V) (h : k' ≠ k) :
    dGet (dSet m k v) k' = dGet m k' := by
  have h' : k ≠ k' := Ne.symm h
  induction m with
  | nil => simp [dSet, dGet, h']
  | cons p rest ih =>
    obtain ⟨k₀, v₀⟩ := p
    by_cases hk : k₀ = k
    · subst hk
      simp [dSet, dGet, h']
    · simp [dSet, dGet, hk, ih]

@[simp] theorem dGet_erase_self (m : Dict V) (k : String) :
    dGet (dErase m k) k = none := by
  induction m with
  | nil => rfl
  | cons p rest ih =>
    obtain ⟨k₀, v₀⟩ := p
    by_cases hk : k₀ = k
    · simp [dErase, hk, ih]
    · simp [dErase, hk, dGet, ih]

theorem dGet_erase_ne (m : Dict V) (k k' : String) (h : k' ≠ k) :
    dGet (dErase m k) k' = dGet m k' := by
  have h' : k ≠ k' := Ne.symm h
  induction m with
  | nil => rfl
  | cons p rest ih =>
    obtain ⟨k₀, v₀⟩ := p
    by_cases hk : k₀ = k
    · subst hk
      simp [dErase, dGet, h', ih]
    · simp [dErase, dGet, hk, ih]

theorem dSet_set_same (m : Dict V) (k : String) (v : V) :
    dSet (dSet m k v) k v = dSet m k v := by
  induction m with
  | nil => simp [dSet]
  | cons p rest ih =>
    obtain ⟨k₀, v₀⟩ := p
    by_cases hk : k₀ = k
    · subst hk; simp [dSet]
    · simp [dSet, hk, ih]

theorem dKeys_set (m : Dict V) (k : String) (v : V) (h : (dGet m k).isSome) :
    dKeys (dSet m k v) = dKeys m := by
  induction m with
  | nil => simp [dGet] at h
  | cons p rest ih =>
    obtain ⟨k₀, v₀⟩ := p
    by_cases hk : k₀ = k
    · subst hk; simp [dSet, dKeys]
    · simp only [dGet, if_neg hk] at h
      simp [dSet, hk, dKeys] at ih ⊢
      exact ih h

/-- `set.add`: insert if absent (Python set membership semantics). -/
def addElem (s : List String) (x : String) : List String :=
  if x ∈ s then s else s ++ [x]

/-- `set.discard`: remove every occurrence. -/
def removeElem (s : List String) (x : String) : List String :=
  s.filter (· ≠ x)

@[simp] theorem mem_addElem (s : List String) (x y : String) :
    y ∈ addElem s x ↔ y ∈ s ∨ y = x := by
  by_cases h : x ∈ s
  · simp only [addElem, if_pos h]
    constructor
    · exact Or.inl
    · rintro (hy | rfl)
      · exact hy
      · exact h
  · simp [addElem, if_neg h]

@[simp] theorem mem_removeElem (s : List String) (x y : String) :
    y ∈ removeElem s x ↔ y ∈ s ∧ y ≠ x := by
  simp [removeElem]

theorem addElem_mem_eq (s : List String) (x : String) (h : x ∈ s) :
    addElem s x = s := by
  simp [addElem, h]

theorem addElem_idem (s : List String) (x : String) :
    addElem (addElem s x) x = addElem s x := by
  have hx : x ∈ addElem s x := by
    by_cases h : x ∈ s <;> simp [addElem, h]
  exact addElem_mem_eq _ _ hx

theorem removeElem_idem (s : List String) (x : String) :
    removeElem (removeElem s x) x = removeElem s x := by
  simp only [removeElem]
  rw [List.filter_filter]
  simp

/-- `UserStatus` enum from `src/sockio/models.py`. -/
inductive UserStatus
  | online
  | offline
  | away
  | busy
deriving DecidableEq, Repr

/-- The slice of the external user store record (`User`) touched by the
connection manager: `status` and `last_seen`. -/
structure UserRec where
  status : UserStatus
  last_seen : Option Nat
deriving DecidableEq, Repr

/-- `WebSocketConnection` (`connection_manager.py`): bound user
(`self.user`, holding the user id), `authenticated` flag and
`subscribed_conversations`.  The transport handle, `session_token` and the
two timestamps are not consulted by any claim and are omitted. -/
structure ConnState where
  user : Option String
  authenticated : Bool
  subscribed : List String
deriving DecidableEq, Repr

/-- `WebSocketConnection.__init__`: unauthenticated, no user, no subs. -/
def newConnection : ConnState :=
  { user := none, authenticated := false, subscribed := [] }

/-- `WebSocketConnection.is_authenticated`. -/
def is_authenticated (c : ConnState) : Bool :=
  c.authenticated && c.user.isSome

/-- The `ConnectionManager` registry state plus the external user store it
writes through `user.save()`. -/
structure ManagerState where
  connections : Dict ConnState
  user_connections : Dict (List String)
  conversation_subscribers : Dict (List String)
  userStore : Dict UserRec
deriving DecidableEq, Repr

/-- `ConnectionManager._update_user_status`: sets `status` and
`last_seen = now`, then persists. -/
def _update_user_status (s : ManagerState) (uid : String) (st : UserStatus)
    (now : Nat) : ManagerState :=
  { s with userStore := dSet s.userStore uid ⟨st, some now⟩ }

/-- `ConnectionManager.add_connection` with the freshly generated
`connection_id` made explicit (the uuid4 generation is abstracted: the
caller supplies the id). -/
def add_connection (s : ManagerState) (cid : String) : ManagerState :=
  { s with connections := dSet s.connections cid newConnection }

/-- `ConnectionManager.authenticate_connection`.  `oracle` is
`auth_manager.authenticate_websocket` (token to user id);
`update_websocket_session` touches only the session store and is omitted. -/
def authenticate_connection (oracle : String → Option String) (now : Nat)
    (s : ManagerState) (cid token : String) : ManagerState × Bool :=
  match dGet s.connections cid with
  | none => (s, false)
  | some conn =>
    match oracle token with
    | none => (s, false)
    | some uid =>
      let conn' := { conn with user := some uid, authenticated := true }
      let s1 := { s with connections := dSet s.connections cid conn' }
      let uset := (dGet s1.user_connections uid).getD []
      let s2 := { s1 with
        user_connections := dSet s1.user_connections uid (addElem uset cid) }
      (_update_user_status s2 uid .online now, true)

/-- Body of the room-cleanup loop in `remove_connection`: discard `cid`
from one conversation's subscriber set, deleting the set if it empties. -/
def dropRoomRef (cid : String) (st : ManagerState) (room : String) : ManagerState :=
  match dGet st.conversation_subscribers room with
  | none => st
  | some rset =>
    let rset' := removeElem rset cid
    if rset' = [] then
      { st with conversation_subscribers := dErase st.conversation_subscribers room }
    else
      { st with conversation_subscribers := dSet st.conversation_subscribers room rset' }

/-- The user-index scrub in `remove_connection` (lines 84-93): discard the
id from its bound user's set; if the set empties, delete it and flip the
user offline with a last-seen timestamp. -/
def dropUserRef (now : Nat) (s : ManagerState) (cid : String) (conn : ConnState) :
    ManagerState :=
  match conn.user with
  | none => s
  | some uid =>
    match dGet s.user_connections uid with
    | none => s
    | some uset =>
      let uset' := removeElem uset cid
      if uset' = [] then
        _update_user_status
          { s with user_connections := dErase s.user_connections uid }
          uid .offline now
      else
        { s with user_connections := dSet s.user_connections uid uset' }

/-- `ConnectionManager.remove_connection` (the `close_code` argument only
feeds logging and is dropped). -/
def remove_connection (now : Nat) (s : ManagerState) (cid : String) : ManagerState :=
  match dGet s.connections cid with
  | none => s
  | some conn =>
    let s2 := conn.subscribed.foldl (dropRoomRef cid) (dropUserRef now s cid conn)
    { s2 with connections := dErase s2.connections cid }

/-- `ConnectionManager.subscribe_to_conversation`. -/
def subscribe_to_conversation (s : ManagerState) (cid room : String) :
    ManagerState × Bool :=
  match dGet s.connections cid with
  | none => (s, false)
  | some conn =>
    if is_authenticated conn then
      let rset := (dGet s.conversation_subscribers room).getD []
      let s1 := { s with
        conversation_subscribers :=
          dSet s.conversation_subscribers room (addElem rset cid) }
      let conn' := { conn with subscribed := addElem conn.subscribed room }
      ({ s1 with connections := dSet s1.connections cid conn' }, true)
    else
      (s, false)

/-- `ConnectionManager.unsubscribe_from_conversation`. -/
def unsubscribe_from_conversation (s : ManagerState) (cid room : String) :
    ManagerState × Bool :=
  match dGet s.connections cid with
  | none => (s, false)
  | some conn =>
    let s1 :=
      match dGet s.conversation_subscribers room with
      | none => s
      | some rset =>
        let rset' := removeElem rset cid
        if rset' = [] then
          { s with conversation_subscribers := dErase s.conversation_subscribers room }
        else
          { s with conversation_subscribers := dSet s.conversation_subscribers room rset' }
    let conn' := { conn with subscribed := removeElem conn.subscribed room }
    ({ s1 with connections := dSet s1.connections cid conn' }, true)

/-- `ConnectionManager.cleanup_inactive_connections`: the scan of
`last_activity` timestamps is abstracted; `ids` stands for the connections
whose inactivity exceeded the cutoff, each of which is removed. -/
def cleanup_inactive (now : Nat) (s : ManagerState) (ids : List String) : ManagerState :=
  ids.foldl (remove_connection now) s

/-- `ConnectionManager.get_user_status`: online while the user owns live
authenticated connections, else whatever the external store last persisted
(`OFFLINE` when the user is unknown or the read fails). -/
def get_user_status (s : ManagerState) (uid : String) : UserStatus :=
  if (dGet s.user_connections uid).isSome then .online
  else
    match dGet s.userStore uid with
    | some u => u.status
    | none => .offline

/-! ## Delivery layer

`websocket.send` is an `await`-ed call: while it runs, other tasks may
mutate the registry.  A `Transport` therefore maps the state at call time
and the recipient id to the state after the call plus a success flag
(`False` models a raised-and-caught transport exception, matching the
`try/except` in `send_to_connection`). -/

/-- The effect of one `connection.websocket.send(message)` call: resulting
state (arbitrary interleaved registry mutation) and success flag. -/
abbrev Transport := ManagerState → String → ManagerState × Bool

/-- A transport whose write outcome is `f cid` and which performs no
registry mutation (the real `websocket.send` never touches the registry). -/
def pureT (f : String → Bool) : Transport :=
  fun st cid => (st, f cid)

/-- `ConnectionManager.send_to_connection`: missing connection returns
`False`; otherwise one transport write whose failure is caught and
returned as `False` (`update_activity` only touches the unmodelled
`last_activity` timestamp). -/
def send_to_connection (t : Transport) (st : ManagerState) (cid : String) :
    ManagerState × Bool :=
  match dGet st.connections cid with
  | none => (st, false)
  | some _ => t st cid

/-- One step of the `send_to_user` loop: attempt one send, count it if it
succeeded, record it in the trace. -/
def sendUserStep (t : Transport)
    (acc : ManagerState × Nat × List (String × Bool)) (cid : String) :
    ManagerState × Nat × List (String × Bool) :=
  let (st', ok) := send_to_connection t acc.1 cid
  (st', acc.2.1 + (if ok then 1 else 0), acc.2.2 ++ [(cid, ok)])

/-- `ConnectionManager.send_to_user`: iterates a `.copy()` snapshot of the
user's id set; returns the final state, the count of successful sends and
the trace of `send_to_connection` attempts `(cid, succeeded)`. -/
def send_to_user (t : Transport) (s : ManagerState) (uid : String) :
    ManagerState × Nat × List (String × Bool) :=
  let ids := (dGet s.user_connections uid).getD []
  ids.foldl (sendUserStep t) (s, 0, [])

/-- The `exclude_user_id` test in `send_to_conversation`:
`if exclude_user_id and connection.get_user_id() == exclude_user_id`
(an empty string is falsy in Python, hence the `e ≠ ""` guard). -/
def excludedUser (excl : Option String) (conn : ConnState) : Bool :=
  match excl with
  | none => false
  | some e => (e ≠ "" : Bool) && conn.user == some e

/-- One step of the `send_to_conversation` loop.  The trace records every
snapshot id visited: `none` when the recipient was filtered out (gone,
unauthenticated or excluded), `some ok` when a send was attempted. -/
def sendConvStep (t : Transport) (excl : Option String)
    (acc : ManagerState × Nat × List (String × Option Bool)) (cid : String) :
    ManagerState × Nat × List (String × Option Bool) :=
  match dGet acc.1.connections cid with
  | some conn =>
    if is_authenticated conn then
      if excludedUser excl conn then (acc.1, acc.2.1, acc.2.2 ++ [(cid, none)])
      else
        let (st', ok) := send_to_connection t acc.1 cid
        (st', acc.2.1 + (if ok then 1 else 0), acc.2.2 ++ [(cid, some ok)])
    else (acc.1, acc.2.1, acc.2.2 ++ [(cid, none)])
  | none => (acc.1, acc.2.1, acc.2.2 ++ [(cid, none)])

/-- `ConnectionManager.send_to_conversation` (the spec's `send_to_room`):
iterates a `.copy()` snapshot of the room's subscriber set, re-checks each
candidate against the then-current connection table, skips
unauthenticated and excluded recipients, counts successful sends. -/
def send_to_conversation (t : Transport) (s : ManagerState) (room : String)
    (excl : Option String) : ManagerState × Nat × List (String × Option Bool) :=
  let ids := (dGet s.conversation_subscribers room).getD []
  ids.foldl (sendConvStep t excl) (s, 0, [])

/-- Loop of `broadcast_to_all`, which iterates `self.connections.items()`
LIVE (no `.copy()`).  A CPython dict iterator raises
`RuntimeError: dictionary changed size during iteration` on its next step
whenever the dict's size changed, which `.error ()` models; with an
unchanged size the current value for the visited key is yielded. -/
def broadcastLoop (t : Transport) (authOnly : Bool) (sz : Nat) :
    List String → ManagerState → Nat → Except Unit (ManagerState × Nat)
  | [], st, n =>
    if st.connections.length = sz then .ok (st, n) else .error ()
  | cid :: rest, st, n =>
    if st.connections.length = sz then
      match dGet st.connections cid with
      | some conn =>
        if authOnly && !is_authenticated conn then
          broadcastLoop t authOnly sz rest st n
        else
          let (st', ok) := send_to_connection t st cid
          broadcastLoop t authOnly sz rest st' (n + (if ok then 1 else 0))
      | none => broadcastLoop t authOnly sz rest st n
    else .error ()

/-- `ConnectionManager.broadcast_to_all`. -/
def broadcast_to_all (t : Transport) (s : ManagerState) (authOnly : Bool) :
    Except Unit (ManagerState × Nat) :=
  broadcastLoop t authOnly s.connections.length (dKeys s.connections) s 0

/-! ## Message dispatcher (`src/sockio/message_handler.py`)

`handle_message` decodes UTF-8, parses JSON, checks the top-level shape,
resolves `type` against `self.message_types`, validates the payload by
constructing the pydantic model, and dispatches through the
`singledispatchmethod` `handle_request`.  Exception routing in the source:

* `bytes.decode('utf-8')` raises `UnicodeDecodeError`, which is **not** a
  `json.JSONDecodeError`, so it falls to the outer `except Exception` and
  is answered `SERVER_ERROR`;
* `json.loads` failures are `json.JSONDecodeError` → `INVALID_MESSAGE_FORMAT`;
* an unhashable `type` value (JSON object/array) makes
  `self.message_types.get(message_type)` raise `TypeError` → outer
  `except Exception` → `SERVER_ERROR`;
* pydantic validation errors **and any exception escaping the dispatched
  handler** are caught by the inner `except Exception` around
  `model_class(**message_data); await self.handle_request(...)` and
  answered `INVALID_MESSAGE_FORMAT`. -/

/-- JSON values. -/
inductive Json
  | str (s : String)
  | num (n : Int)
  | jbool (b : Bool)
  | null
  | arr (elems : List Json)
  | obj (fields : List (String × Json))

/-- The outcome of decoding the inbound bytes: invalid UTF-8, valid UTF-8
that is not JSON, or a parsed JSON value.  Every byte sequence falls into
exactly one class. -/
inductive Inbound
  | badUtf8
  | badJson
  | val (j : Json)

/-- `dict[k]` for a parsed JSON object (`json.loads` keeps the last
binding of a duplicated key). -/
def jGet (fields : List (String × Json)) (k : String) : Option Json :=
  dGet fields.reverse k

/-- Observable replies emitted to connections: `msg`/`err` are
`_send_message`/`_send_error` to the requesting connection. -/
inductive Reply
  | msg (rtype : String)
  | err (code : String)
deriving DecidableEq, Repr

/-- Outcome of the external domain-service call made by the executed
handler body (`contact_service.search_users`): success, domain failure
(`None`/`False` from the service), or a raised exception. -/
inductive SvcRes
  | ok
  | fail
  | exn
deriving DecidableEq, Repr

/-- `DispatchMessageHandler.message_types`: type string → pydantic model
class (28 entries). -/
def message_types : List (String × String) :=
  [("auth", "AuthMessage"),
   ("logout", "LogoutMessage"),
   ("send_message", "SendMessageRequest"),
   ("edit_message", "EditMessageRequest"),
   ("delete_message", "DeleteMessageRequest"),
   ("mark_as_read", "MarkAsReadRequest"),
   ("join_conversation", "JoinConversationRequest"),
   ("leave_conversation", "LeaveConversationRequest"),
   ("create_group", "CreateGroupRequest"),
   ("create_direct_chat", "CreateDirectChatRequest"),
   ("add_participants", "AddParticipantsRequest"),
   ("remove_participant", "RemoveParticipantRequest"),
   ("typing_start", "TypingStartRequest"),
   ("typing_stop", "TypingStopRequest"),
   ("update_status", "UpdateStatusRequest"),
   ("get_conversations", "GetConversationsRequest"),
   ("get_messages", "GetMessagesRequest"),
   ("get_participants", "GetParticipantsRequest"),
   ("send_contact_request", "SendContactRequestRequest"),
   ("accept_contact_request", "AcceptContactRequestRequest"),
   ("decline_contact_request", "DeclineContactRequestRequest"),
   ("remove_contact", "RemoveContactRequest"),
   ("block_user", "BlockUserRequest"),
   ("unblock_user", "UnblockUserRequest"),
   ("get_contacts", "GetContactsRequest"),
   ("get_pending_requests", "GetPendingRequestsRequest"),
   ("get_blocked_users", "GetBlockedUsersRequest"),
   ("search_users", "SearchUsersRequest")]

/-- `self.message_types.get(message_type)`: a string key is looked up;
other hashable JSON values (number/bool/null) simply miss; unhashable
values (object/array) raise `TypeError` (modelled as `.error ()`). -/
def typeLookup (mt : Json) : Except Unit (Option String) :=
  match mt with
  | .str s => .ok (dGet message_types s)
  | .num _ => .ok none
  | .jbool _ => .ok none
  | .null => .ok none
  | .arr _ => .error ()
  | .obj _ => .error ()

/-- A required `str` field. -/
def fieldStr (fs : List (String × Json)) (k : String) : Bool :=
  match jGet fs k with
  | some (.str _) => true
  | _ => false

/-- An `Optional[str] = None` field: absent, `null`, or a string. -/
def fieldOptStr (fs : List (String × Json)) (k : String) : Bool :=
  match jGet fs k with
  | none => true
  | some .null => true
  | some (.str _) => true
  | _ => false

/-- A `str = <default>` field: absent or a string. -/
def fieldStrD (fs : List (String × Json)) (k : String) : Bool :=
  match jGet fs k with
  | none => true
  | some (.str _) => true
  | _ => false

/-- An `int = <default>` field: absent or a number. -/
def fieldIntD (fs : List (String × Json)) (k : String) : Bool :=
  match jGet fs k with
  | none => true
  | some (.num _) => true
  | _ => false

/-- A required `list` field. -/
def fieldList (fs : List (String × Json)) (k : String) : Bool :=
  match jGet fs k with
  | some (.arr _) => true
  | _ => false

/-- A `list = []` field: absent or an array. -/
def fieldListD (fs : List (String × Json)) (k : String) : Bool :=
  match jGet fs k with
  | none => true
  | some (.arr _) => true
  | _ => false

/-- Field validation of `model_class(**fields)` per pydantic model class
(strict field shapes; extra fields are ignored, as pydantic does by
default). -/
def validFields (cls : String) (fs : List (String × Json)) : Bool :=
  if cls = "AuthMessage" then fieldStr fs "token"
  else if cls = "SendMessageRequest" then
    fieldStr fs "conversation_id" && fieldStr fs "content" &&
      fieldStrD fs "message_type" && fieldOptStr fs "reply_to_id"
  else if cls = "EditMessageRequest" then
    fieldStr fs "message_id" && fieldStr fs "content"
  else if cls = "DeleteMessageRequest" then fieldStr fs "message_id"
  else if cls = "MarkAsReadRequest" then
    fieldStr fs "conversation_id" && fieldStr fs "message_id"
  else if cls = "JoinConversationRequest" then fieldStr fs "conversation_id"
  else if cls = "LeaveConversationRequest" then fieldStr fs "conversation_id"
  else if cls = "CreateGroupRequest" then
    fieldStr fs "name" && fieldOptStr fs "description" &&
      fieldListD fs "participant_ids"
  else if cls = "CreateDirectChatRequest" then fieldStr fs "user_id"
  else if cls = "AddParticipantsRequest" then
    fieldStr fs "conversation_id" && fieldList fs "user_ids"
  else if cls = "RemoveParticipantRequest" then
    fieldStr fs "conversation_id" && fieldStr fs "user_id"
  else if cls = "TypingStartRequest" then fieldStr fs "conversation_id"
  else if cls = "TypingStopRequest" then fieldStr fs "conversation_id"
  else if cls = "UpdateStatusRequest" then fieldStr fs "status"
  else if cls = "GetMessagesRequest" then
    fieldStr fs "conversation_id" && fieldIntD fs "limit" && fieldIntD fs "offset"
  else if cls = "GetParticipantsRequest" then fieldStr fs "conversation_id"
  else if cls = "SendContactRequestRequest" then fieldStr fs "user_id"
  else if cls = "AcceptContactRequestRequest" then fieldStr fs "contact_id"
  else if cls = "DeclineContactRequestRequest" then fieldStr fs "contact_id"
  else if cls = "RemoveContactRequest" then fieldStr fs "contact_user_id"
  else if cls = "BlockUserRequest" then fieldStr fs "user_id"
  else if cls = "UnblockUserRequest" then fieldStr fs "user_id"
  else if cls = "SearchUsersRequest" then fieldStr fs "query" && fieldIntD fs "limit"
  else true

/-- `model_class(**message_data)`: a non-object payload raises `TypeError`
(same inner `except` as a validation error), an object is validated
field-wise. -/
def validate (cls : String) (data : Json) : Bool :=
  match data with
  | .obj fs => validFields cls fs
  | _ => false

/-- Outcome of `DispatchMessageHandler._require_auth`: unauthenticated (or
unknown connection) → `AUTHENTICATION_REQUIRED` reply; authenticated but
`User.get` finds nothing → the handler returns silently (`if not user`);
otherwise the bound user id. -/
inductive AuthCheck
  | unauth
  | missingUser
  | user (uid : String)

/-- `_require_auth` via `connection_manager.get_connection_info`. -/
def require_auth (s : ManagerState) (cid : String) : AuthCheck :=
  match dGet s.connections cid with
  | none => .unauth
  | some conn =>
    if is_authenticated conn then
      match conn.user with
      | some uid =>
        if (dGet s.userStore uid).isSome then .user uid else .missingUser
      | none => .missingUser
    else .unauth

/-- Result of a dispatched request: next state, replies emitted, and
whether an exception escaped the handler (to be caught by
`handle_message`'s inner `except`). -/
structure HRes where
  state : ManagerState
  replies : List Reply
  raised : Bool
deriving Repr

set_option linter.unusedVariables false in
/-- `DispatchMessageHandler.handle_request`.  `functools.singledispatchmethod`
dispatches on the runtime class of the first argument after `self` —
`connection_id`, always a `str`.  Every `@handle_request.register`
overload annotates its first parameter as `connection_id: str`, and
`register` infers the dispatch type from the first annotated parameter,
so all 15 overloads register under `str`, each overwriting the previous;
the last registration — the `SearchUsersRequest` body
(`message_handler.py:484`) — is therefore the implementation executed for
every request, whatever the model class, and neither the per-class
overload bodies nor the `UNKNOWN_MESSAGE_TYPE` base implementation is
ever reached for a recognized kind.  The executed body runs
`_require_auth`, then evaluates `request.query` as an argument to
`contact_service.search_users` — an `AttributeError` for every model
class except `SearchUsersRequest`, escaping to `handle_message`'s inner
`except` — and otherwise replies `users_search_results`.  `svc` abstracts
whether the contact service itself raises on a genuine search request;
`oracle` and `now` are the collaborators the unreachable overload bodies
would have used, and `data` the validated payload whose fields none of
the reachable paths read. -/
def handle_request (oracle : String → Option String) (svc : String → SvcRes)
    (now : Nat) (s : ManagerState) (cid : String) (cls : String) (data : Json) :
    HRes :=
  match require_auth s cid with
  | .unauth => ⟨s, [.err "AUTHENTICATION_REQUIRED"], false⟩
  | .missingUser => ⟨s, [], false⟩
  | .user _ =>
    if cls = "SearchUsersRequest" then
      match svc cls with
      | .exn => ⟨s, [], true⟩
      | _ => ⟨s, [.msg "users_search_results"], false⟩
    else ⟨s, [], true⟩

/-- `DispatchMessageHandler.handle_message`. -/
def handle_message (oracle : String → Option String) (svc : String → SvcRes)
    (now : Nat) (s : ManagerState) (cid : String) (inb : Inbound) :
    ManagerState × List Reply :=
  match inb with
  | .badUtf8 => (s, [.err "SERVER_ERROR"])
  | .badJson => (s, [.err "INVALID_MESSAGE_FORMAT"])
  | .val j =>
    match j with
    | .obj fields =>
      match jGet fields "type" with
      | none => (s, [.err "INVALID_MESSAGE_FORMAT"])
      | some mt =>
        let data := (jGet fields "data").getD (.obj [])
        match typeLookup mt with
        | .error _ => (s, [.err "SERVER_ERROR"])
        | .ok none => (s, [.err "UNKNOWN_MESSAGE_TYPE"])
        | .ok (some cls) =>
          if validate cls data then
            let r := handle_request oracle svc now s cid cls data
            if r.raised then (r.state, r.replies ++ [.err "INVALID_MESSAGE_FORMAT"])
            else (r.state, r.replies)
          else (s, [.err "INVALID_MESSAGE_FORMAT"])
    | _ => (s, [.err "INVALID_MESSAGE_FORMAT"])

/-! ## Registry operation sequences and reachable states -/

/-- One registry operation of the `ConnectionManager` API.  Timestamps are
supplied per call; `cleanup` carries the ids selected by the
`last_activity` scan. -/
inductive Op
  | register (cid : String)
  | auth (cid token : String) (now : Nat)
  | subscribe (cid room : String)
  | unsubscribe (cid room : String)
  | remove (cid : String) (now : Nat)
  | cleanup (ids : List String) (now : Nat)

/-- Apply one operation (dropping returned booleans). -/
def applyOp (oracle : String → Option String) (s : ManagerState) : Op → ManagerState
  | .register cid => add_connection s cid
  | .auth cid token now => (authenticate_connection oracle now s cid token).1
  | .subscribe cid room => (subscribe_to_conversation s cid room).1
  | .unsubscribe cid room => (unsubscribe_from_conversation s cid room).1
  | .remove cid now => remove_connection now s cid
  | .cleanup ids now => cleanup_inactive now s ids

/-- `applyOp` folded over a call sequence. -/
def applyOps (oracle : String → Option String) (ops : List Op)
    (s : ManagerState) : ManagerState :=
  ops.foldl (applyOp oracle) s

/-- Freshness of `generate_connection_id`: `add_connection` is only ever
invoked with a uuid4 id not currently in the table. -/
def freshOk (s : ManagerState) : Op → Prop
  | .register cid => dGet s.connections cid = none
  | _ => True

/-- States reachable from an empty registry (arbitrary initial external
user store) by the `ConnectionManager` API. -/
inductive Reach (oracle : String → Option String) : ManagerState → Prop
  | init (us : Dict UserRec) : Reach oracle ⟨[], [], [], us⟩
  | step {s : ManagerState} (op : Op) :
      Reach oracle s → freshOk s op → Reach oracle (applyOp oracle s op)

/-! ## Registry invariants -/

/-- Spec invariant (1), exactly as claimed: a connection id appears in the
user index under `uid` iff that connection exists, is authenticated, and
is bound to `uid`. -/
def UserIndexExact (s : ManagerState) : Prop :=
  ∀ uid cid,
    (∃ uset, dGet s.user_connections uid = some uset ∧ cid ∈ uset) ↔
      (∃ conn, dGet s.connections cid = some conn ∧
        conn.authenticated = true ∧ conn.user = some uid)

/-- The half of invariant (1) the code maintains: every existing
authenticated connection bound to `uid` appears in the user index under
`uid`. -/
def UserIndexComplete (s : ManagerState) : Prop :=
  ∀ cid conn uid, dGet s.connections cid = some conn →
    conn.authenticated = true → conn.user = some uid →
    ∃ uset, dGet s.user_connections uid = some uset ∧ cid ∈ uset

/-- Spec invariant (2): every id referenced by a room-index set exists in
the connection table. -/
def RoomRefsExist (s : ManagerState) : Prop :=
  ∀ room rset cid, dGet s.conversation_subscribers room = some rset →
    cid ∈ rset → (dGet s.connections cid).isSome

/-- Strengthening of invariant (2) maintained by the code: every room
reference points at an existing connection that records the room among its
subscriptions. -/
def RoomRefsSubscribed (s : ManagerState) : Prop :=
  ∀ room rset cid, dGet s.conversation_subscribers room = some rset →
    cid ∈ rset →
    ∃ conn, dGet s.connections cid = some conn ∧ room ∈ conn.subscribed

/-- Converse bookkeeping invariant: every room a connection records is a
room-index entry referencing it. -/
def SubscribedRegistered (s : ManagerState) : Prop :=
  ∀ cid conn room, dGet s.connections cid = some conn →
    room ∈ conn.subscribed →
    ∃ rset, dGet s.conversation_subscribers room = some rset ∧ cid ∈ rset

/-- The inductive invariant of the registry. -/
def Inv (s : ManagerState) : Prop :=
  UserIndexComplete s ∧ RoomRefsSubscribed s ∧ SubscribedRegistered s

theorem roomRefsExist_of_subscribed {s : ManagerState}
    (h : RoomRefsSubscribed s) : RoomRefsExist s := by
  intro room rset cid h1 h2
  obtain ⟨conn, hc, _⟩ := h room rset cid h1 h2
  simp [hc]

/-- `cid` is referenced by `room`'s subscriber set. -/
def RefIn (s : ManagerState) (room cid : String) : Prop :=
  ∃ rset, dGet s.conversation_subscribers room = some rset ∧ cid ∈ rset

theorem dropRoomRef_connections (cid : String) (st : ManagerState) (room : String) :
    (dropRoomRef cid st room).connections = st.connections := by
  unfold dropRoomRef
  cases h : dGet st.conversation_subscribers room with
  | none => rfl
  | some rset =>
    by_cases he : removeElem rset cid = [] <;> simp [he]

theorem dropRoomRef_user_connections (cid : String) (st : ManagerState) (room : String) :
    (dropRoomRef cid st room).user_connections = st.user_connections := by
  unfold dropRoomRef
  cases h : dGet st.conversation_subscribers room with
  | none => rfl
  | some rset =>
    by_cases he : removeElem rset cid = [] <;> simp [he]

theorem dropRoomRef_userStore (cid : String) (st : ManagerState) (room : String) :
    (dropRoomRef cid st room).userStore = st.userStore := by
  unfold dropRoomRef
  cases h : dGet st.conversation_subscribers room with
  | none => rfl
  | some rset =>
    by_cases he : removeElem rset cid = [] <;> simp [he]

theorem dropRoomRef_none {cid : String} {st : ManagerState} {room : String}
    (h : dGet st.conversation_subscribers room = none) :
    dropRoomRef cid st room = st := by
  unfold dropRoomRef
  rw [h]

theorem dropRoomRef_empty {cid : String} {st : ManagerState} {room : String}
    {rset : List String} (h : dGet st.conversation_subscribers room = some rset)
    (he : removeElem rset cid = []) :
    dropRoomRef cid st room =
      { st with conversation_subscribers := dErase st.conversation_subscribers room } := by
  unfold dropRoomRef
  rw [h]
  simp [he]

theorem dropRoomRef_scrub {cid : String} {st : ManagerState} {room : String}
    {rset : List String} (h : dGet st.conversation_subscribers room = some rset)
    (he : removeElem rset cid ≠ []) :
    dropRoomRef cid st room =
      { st with conversation_subscribers := dSet st.conversation_subscribers room (removeElem rset cid) } := by
  unfold dropRoomRef
  rw [h]
  simp [he]

theorem dropRoomRef_kills_self (cid : String) (st : ManagerState) (room : String) :
    ¬ RefIn (dropRoomRef cid st room) room cid := by
  cases hg : dGet st.conversation_subscribers room with
  | none =>
    rw [dropRoomRef_none hg]
    rintro ⟨rset, h1, h2⟩
    rw [hg] at h1
    cases h1
  | some rset =>
    by_cases he : removeElem rset cid = []
    · rw [dropRoomRef_empty hg he]
      rintro ⟨rset', h1, h2⟩
      simp [dGet_erase_self] at h1
    · rw [dropRoomRef_scrub hg he]
      rintro ⟨rset', h1, h2⟩
      simp only [dGet_set_self, Option.some.injEq] at h1
      subst h1
      simp at h2

theorem dropRoomRef_ref_mono {cid : String} {st : ManagerState} {room room₀ cid₀ : String}
    (h : RefIn (dropRoomRef cid st room) room₀ cid₀) : RefIn st room₀ cid₀ := by
  cases hg : dGet st.conversation_subscribers room with
  | none =>
    rw [dropRoomRef_none hg] at h
    exact h
  | some rset =>
    by_cases he : removeElem rset cid = []
    · rw [dropRoomRef_empty hg he] at h
      obtain ⟨rset', h1, h2⟩ := h
      by_cases hr : room₀ = room
      · subst hr
        simp [dGet_erase_self] at h1
      · rw [dGet_erase_ne _ _ _ hr] at h1
        exact ⟨rset', h1, h2⟩
    · rw [dropRoomRef_scrub hg he] at h
      obtain ⟨rset', h1, h2⟩ := h
      by_cases hr : room₀ = room
      · subst hr
        simp only [dGet_set_self, Option.some.injEq] at h1
        subst h1
        simp at h2
        exact ⟨rset, hg, h2.1⟩
      · rw [dGet_set_ne _ _ _ _ hr] at h1
        exact ⟨rset', h1, h2⟩

theorem dropRoomRef_ref_other {cid : String} {st : ManagerState}
    {room room₀ cid₀ : String} (hne : cid₀ ≠ cid ∨ room₀ ≠ room) :
    RefIn (dropRoomRef cid st room) room₀ cid₀ ↔ RefIn st room₀ cid₀ := by
  constructor
  · exact dropRoomRef_ref_mono
  · intro h
    cases hg : dGet st.conversation_subscribers room with
    | none =>
      rw [dropRoomRef_none hg]
      exact h
    | some rset =>
      by_cases hr : room₀ = room
      · subst hr
        obtain ⟨rset', h1, h2⟩ := h
        rw [hg] at h1
        have hrr : rset = rset' := Option.some.inj h1
        subst hrr
        have hcc : cid₀ ≠ cid := by
          rcases hne with h' | h'
          · exact h'
          · exact absurd rfl h'
        have hmem : cid₀ ∈ removeElem rset cid := by simp [h2, hcc]
        have hnil : removeElem rset cid ≠ [] := by
          intro hc
          rw [hc] at hmem
          cases hmem
        rw [dropRoomRef_scrub hg hnil]
        exact ⟨removeElem rset cid, dGet_set_self _ _ _, hmem⟩
      · by_cases he : removeElem rset cid = []
        · rw [dropRoomRef_empty hg he]
          obtain ⟨rset', h1, h2⟩ := h
          exact ⟨rset', by rw [dGet_erase_ne _ _ _ hr]; exact h1, h2⟩
        · rw [dropRoomRef_scrub hg he]
          obtain ⟨rset', h1, h2⟩ := h
          exact ⟨rset', by rw [dGet_set_ne _ _ _ _ hr]; exact h1, h2⟩

theorem foldDrop_ref_mono {cid : String} (rooms : List String)
    {st : ManagerState} {room₀ cid₀ : String}
    (h : RefIn (rooms.foldl (dropRoomRef cid) st) room₀ cid₀) :
    RefIn st room₀ cid₀ := by
  induction rooms generalizing st with
  | nil => exact h
  | cons r rest ih => exact dropRoomRef_ref_mono (ih h)

theorem foldDrop_kills {cid : String} (rooms : List String)
    {st : ManagerState} {room₀ : String} (hr : room₀ ∈ rooms) :
    ¬ RefIn (rooms.foldl (dropRoomRef cid) st) room₀ cid := by
  induction rooms generalizing st with
  | nil => cases hr
  | cons r rest ih =>
    rcases List.mem_cons.mp hr with h | h
    · subst h
      by_cases hrest : room₀ ∈ rest
      · exact ih hrest
      · intro hc
        simp only [List.foldl_cons] at hc
        have : RefIn (dropRoomRef cid st room₀) room₀ cid := foldDrop_ref_mono rest hc
        exact dropRoomRef_kills_self _ _ _ this
    · exact ih h

theorem foldDrop_ref_off {cid : String} (rooms : List String)
    {st : ManagerState} {room₀ cid₀ : String}
    (hne : cid₀ ≠ cid ∨ room₀ ∉ rooms) :
    RefIn (rooms.foldl (dropRoomRef cid) st) room₀ cid₀ ↔ RefIn st room₀ cid₀ := by
  induction rooms generalizing st with
  | nil => simp
  | cons r rest ih =>
    simp only [List.foldl_cons]
    have hstep : cid₀ ≠ cid ∨ room₀ ≠ r := by
      rcases hne with h | h
      · exact Or.inl h
      · exact Or.inr (fun hc => h (by simp [hc]))
    have hrest : cid₀ ≠ cid ∨ room₀ ∉ rest := by
      rcases hne with h | h
      · exact Or.inl h
      · exact Or.inr (fun hc => h (by simp [hc]))
    rw [ih hrest, dropRoomRef_ref_other hstep]

theorem foldDrop_connections {cid : String} (rooms : List String) (st : ManagerState) :
    (rooms.foldl (dropRoomRef cid) st).connections = st.connections := by
  induction rooms generalizing st with
  | nil => rfl
  | cons r rest ih => simp [List.foldl_cons, ih, dropRoomRef_connections]

theorem foldDrop_user_connections {cid : String} (rooms : List String) (st : ManagerState) :
    (rooms.foldl (dropRoomRef cid) st).user_connections = st.user_connections := by
  induction rooms generalizing st with
  | nil => rfl
  | cons r rest ih => simp [List.foldl_cons, ih, dropRoomRef_user_connections]

/-! Branch equations for the registry operations. -/

theorem auth_eq_missing {oracle : String → Option String} {now : Nat}
    {s : ManagerState} {cid token : String}
    (h : dGet s.connections cid = none) :
    authenticate_connection oracle now s cid token = (s, false) := by
  unfold authenticate_connection
  rw [h]

theorem auth_eq_badtoken {oracle : String → Option String} {now : Nat}
    {s : ManagerState} {cid token : String} {conn : ConnState}
    (h : dGet s.connections cid = some conn) (ho : oracle token = none) :
    authenticate_connection oracle now s cid token = (s, false) := by
  unfold authenticate_connection
  rw [h, ho]

theorem auth_eq_success {oracle : String → Option String} {now : Nat}
    {s : ManagerState} {cid token : String} {conn : ConnState} {uid : String}
    (h : dGet s.connections cid = some conn) (ho : oracle token = some uid) :
    authenticate_connection oracle now s cid token =
      ({ connections := dSet s.connections cid { conn with user := some uid, authenticated := true },
         user_connections := dSet s.user_connections uid (addElem ((dGet s.user_connections uid).getD []) cid),
         conversation_subscribers := s.conversation_subscribers,
         userStore := dSet s.userStore uid ⟨.online, some now⟩ }, true) := by
  unfold authenticate_connection
  rw [h, ho]
  rfl

theorem subscribe_eq_missing {s : ManagerState} {cid room : String}
    (h : dGet s.connections cid = none) :
    subscribe_to_conversation s cid room = (s, false) := by
  unfold subscribe_to_conversation
  rw [h]

theorem subscribe_eq_noauth {s : ManagerState} {cid room : String} {conn : ConnState}
    (h : dGet s.connections cid = some conn) (ha : is_authenticated conn = false) :
    subscribe_to_conversation s cid room = (s, false) := by
  unfold subscribe_to_conversation
  rw [h]
  simp [ha]

theorem subscribe_eq_ok {s : ManagerState} {cid room : String} {conn : ConnState}
    (h : dGet s.connections cid = some conn) (ha : is_authenticated conn = true) :
    subscribe_to_conversation s cid room =
      ({ connections := dSet s.connections cid { conn with subscribed := addElem conn.subscribed room },
         user_connections := s.user_connections,
         conversation_subscribers := dSet s.conversation_subscribers room (addElem ((dGet s.conversation_subscribers room).getD []) cid),
         userStore := s.userStore }, true) := by
  unfold subscribe_to_conversation
  rw [h]
  simp [ha]

theorem unsubscribe_eq_missing {s : ManagerState} {cid room : String}
    (h : dGet s.connections cid = none) :
    unsubscribe_from_conversation s cid room = (s, false) := by
  unfold unsubscribe_from_conversation
  rw [h]

theorem unsubscribe_eq_noroom {s : ManagerState} {cid room : String} {conn : ConnState}
    (h : dGet s.connections cid = some conn)
    (hr : dGet s.conversation_subscribers room = none) :
    unsubscribe_from_conversation s cid room =
      ({ s with connections := dSet s.connections cid { conn with subscribed := removeElem conn.subscribed room } }, true) := by
  unfold unsubscribe_from_conversation
  rw [h, hr]

theorem unsubscribe_eq_empty {s : ManagerState} {cid room : String} {conn : ConnState}
    {rset : List String} (h : dGet s.connections cid = some conn)
    (hr : dGet s.conversation_subscribers room = some rset)
    (he : removeElem rset cid = []) :
    unsubscribe_from_conversation s cid room =
      ({ connections := dSet s.connections cid { conn with subscribed := removeElem conn.subscribed room },
         user_connections := s.user_connections,
         conversation_subscribers := dErase s.conversation_subscribers room,
         userStore := s.userStore }, true) := by
  unfold unsubscribe_from_conversation
  rw [h, hr]
  simp [he]

theorem unsubscribe_eq_scrub {s : ManagerState} {cid room : String} {conn : ConnState}
    {rset : List String} (h : dGet s.connections cid = some conn)
    (hr : dGet s.conversation_subscribers room = some rset)
    (he : removeElem rset cid ≠ []) :
    unsubscribe_from_conversation s cid room =
      ({ connections := dSet s.connections cid { conn with subscribed := removeElem conn.subscribed room },
         user_connections := s.user_connections,
         conversation_subscribers := dSet s.conversation_subscribers room (removeElem rset cid),
         userStore := s.userStore }, true) := by
  unfold unsubscribe_from_conversation
  rw [h, hr]
  simp [he]

theorem remove_eq_missing {now : Nat} {s : ManagerState} {cid : String}
    (h : dGet s.connections cid = none) :
    remove_connection now s cid = s := by
  unfold remove_connection
  rw [h]

theorem remove_eq_found {now : Nat} {s : ManagerState} {cid : String} {conn : ConnState}
    (h : dGet s.connections cid = some conn) :
    remove_connection now s cid =
      { conn.subscribed.foldl (dropRoomRef cid) (dropUserRef now s cid conn) with
        connections := dErase (conn.subscribed.foldl (dropRoomRef cid) (dropUserRef now s cid conn)).connections cid } := by
  unfold remove_connection
  rw [h]

theorem dropUserRef_connections (now : Nat) (s : ManagerState) (cid : String)
    (conn : ConnState) : (dropUserRef now s cid conn).connections = s.connections := by
  unfold dropUserRef
  cases hu : conn.user with
  | none => rfl
  | some uid =>
    cases hg : dGet s.user_connections uid with
    | none => simp [hg]
    | some uset =>
      by_cases he : removeElem uset cid = [] <;> simp [hg, he, _update_user_status]

theorem dropUserRef_conversation (now : Nat) (s : ManagerState) (cid : String)
    (conn : ConnState) :
    (dropUserRef now s cid conn).conversation_subscribers = s.conversation_subscribers := by
  unfold dropUserRef
  cases hu : conn.user with
  | none => rfl
  | some uid =>
    cases hg : dGet s.user_connections uid with
    | none => simp [hg]
    | some uset =>
      by_cases he : removeElem uset cid = [] <;> simp [hg, he, _update_user_status]

theorem removeElem_nil_mem {l : List String} {x y : String}
    (h : removeElem l x = []) (hy : y ∈ l) : y = x := by
  by_contra hne
  have hmem : y ∈ removeElem l x := by simp [hy, hne]
  rw [h] at hmem
  cases hmem

theorem dropUserRef_nouser {now : Nat} {s : ManagerState} {cid : String}
    {conn : ConnState} (hu : conn.user = none) :
    dropUserRef now s cid conn = s := by
  unfold dropUserRef
  simp only [hu]

theorem dropUserRef_nouset {now : Nat} {s : ManagerState} {cid : String}
    {conn : ConnState} {uid : String} (hu : conn.user = some uid)
    (hg : dGet s.user_connections uid = none) :
    dropUserRef now s cid conn = s := by
  unfold dropUserRef
  simp only [hu, hg]

theorem dropUserRef_empty {now : Nat} {s : ManagerState} {cid : String}
    {conn : ConnState} {uid : String} {uset : List String}
    (hu : conn.user = some uid) (hg : dGet s.user_connections uid = some uset)
    (he : removeElem uset cid = []) :
    dropUserRef now s cid conn =
      { s with user_connections := dErase s.user_connections uid, userStore := dSet s.userStore uid ⟨.offline, some now⟩ } := by
  unfold dropUserRef
  simp only [hu, hg, he, if_pos, _update_user_status]

theorem dropUserRef_scrub {now : Nat} {s : ManagerState} {cid : String}
    {conn : ConnState} {uid : String} {uset : List String}
    (hu : conn.user = some uid) (hg : dGet s.user_connections uid = some uset)
    (he : removeElem uset cid ≠ []) :
    dropUserRef now s cid conn =
      { s with user_connections := dSet s.user_connections uid (removeElem uset cid) } := by
  unfold dropUserRef
  simp only [hu, hg]
  rw [if_neg he]

theorem dropUserRef_mem {now : Nat} {s : ManagerState} {cid : String}
    {conn : ConnState} {uid₀ cid₀ : String} (hne : cid₀ ≠ cid)
    (h : ∃ uset, dGet s.user_connections uid₀ = some uset ∧ cid₀ ∈ uset) :
    ∃ uset', dGet (dropUserRef now s cid conn).user_connections uid₀ = some uset' ∧
      cid₀ ∈ uset' := by
  obtain ⟨uset₀, hu, hm⟩ := h
  cases hu' : conn.user with
  | none => rw [dropUserRef_nouser hu']; exact ⟨uset₀, hu, hm⟩
  | some uid =>
    cases hg : dGet s.user_connections uid with
    | none => rw [dropUserRef_nouset hu' hg]; exact ⟨uset₀, hu, hm⟩
    | some uset =>
      by_cases he : removeElem uset cid = []
      · rw [dropUserRef_empty hu' hg he]
        by_cases huid : uid₀ = uid
        · subst huid
          rw [hu] at hg
          have heq : uset₀ = uset := Option.some.inj hg
          subst heq
          exact absurd (removeElem_nil_mem he hm) hne
        · exact ⟨uset₀, by simp only; rw [dGet_erase_ne _ _ _ huid]; exact hu, hm⟩
      · rw [dropUserRef_scrub hu' hg he]
        by_cases huid : uid₀ = uid
        · subst huid
          rw [hu] at hg
          have heq : uset₀ = uset := Option.some.inj hg
          subst heq
          exact ⟨removeElem uset₀ cid, dGet_set_self _ _ _, by simp [hm, hne]⟩
        · exact ⟨uset₀, by simp only; rw [dGet_set_ne _ _ _ _ huid]; exact hu, hm⟩

theorem dropUserRef_kills {now : Nat} {s : ManagerState} {cid : String}
    {conn : ConnState} {uid : String} (hu : conn.user = some uid) :
    ∀ uset', dGet (dropUserRef now s cid conn).user_connections uid = some uset' →
      cid ∉ uset' := by
  intro uset' hget hmem
  cases hg : dGet s.user_connections uid with
  | none =>
    rw [dropUserRef_nouset hu hg] at hget
    rw [hget] at hg
    cases hg
  | some uset =>
    by_cases he : removeElem uset cid = []
    · rw [dropUserRef_empty hu hg he] at hget
      simp [dGet_erase_self] at hget
    · rw [dropUserRef_scrub hu hg he] at hget
      simp only [dGet_set_self, Option.some.injEq] at hget
      subst hget
      simp at hmem

/-! ## Preservation of the registry invariant -/

theorem inv_register {s : ManagerState} {cid : String} (hInv : Inv s)
    (hfresh : dGet s.connections cid = none) : Inv (add_connection s cid) := by
  obtain ⟨hUIC, hRRS, hSR⟩ := hInv
  refine ⟨?_, ?_, ?_⟩
  · intro cid₀ conn₀ uid₀ hget hauth huser
    by_cases hc : cid₀ = cid
    · subst hc
      rw [add_connection] at hget
      simp only [dGet_set_self, Option.some.injEq] at hget
      subst hget
      cases hauth
    · rw [add_connection] at hget
      simp only at hget
      rw [dGet_set_ne _ _ _ _ hc] at hget
      exact hUIC cid₀ conn₀ uid₀ hget hauth huser
  · intro room rset cid₀ h1 h2
    obtain ⟨connb, hb, hroomb⟩ := hRRS room rset cid₀ h1 h2
    have hc : cid₀ ≠ cid := by
      intro hcc
      subst hcc
      rw [hb] at hfresh
      cases hfresh
    exact ⟨connb, by rw [add_connection]; simpa [dGet_set_ne _ _ _ _ hc] using hb, hroomb⟩
  · intro cid₀ conn₀ room hget hroom
    by_cases hc : cid₀ = cid
    · subst hc
      rw [add_connection] at hget
      simp only [dGet_set_self, Option.some.injEq] at hget
      subst hget
      cases hroom
    · rw [add_connection] at hget
      simp only at hget
      rw [dGet_set_ne _ _ _ _ hc] at hget
      exact hSR cid₀ conn₀ room hget hroom

theorem inv_auth {oracle : String → Option String} {now : Nat} {s : ManagerState}
    {cid token : String} (hInv : Inv s) :
    Inv (authenticate_connection oracle now s cid token).1 := by
  obtain ⟨hUIC, hRRS, hSR⟩ := hInv
  cases hg : dGet s.connections cid with
  | none => rw [auth_eq_missing hg]; exact ⟨hUIC, hRRS, hSR⟩
  | some conn =>
    cases ho : oracle token with
    | none => rw [auth_eq_badtoken hg ho]; exact ⟨hUIC, hRRS, hSR⟩
    | some uid =>
      rw [auth_eq_success hg ho]
      refine ⟨?_, ?_, ?_⟩
      · intro cid₀ conn₀ uid₀ hget hauth huser
        simp only at hget huser ⊢
        by_cases hc : cid₀ = cid
        · subst hc
          rw [dGet_set_self] at hget
          have hco : _ = conn₀ := Option.some.inj hget
          subst hco
          simp only at huser
          have huu : uid = uid₀ := Option.some.inj huser
          subst huu
          exact ⟨addElem ((dGet s.user_connections uid).getD []) cid₀,
            dGet_set_self _ _ _, by simp⟩
        · rw [dGet_set_ne _ _ _ _ hc] at hget
          obtain ⟨uset₀, hu, hm⟩ := hUIC cid₀ conn₀ uid₀ hget hauth huser
          by_cases huid : uid₀ = uid
          · subst huid
            refine ⟨addElem ((dGet s.user_connections uid₀).getD []) cid,
              dGet_set_self _ _ _, ?_⟩
            rw [hu]
            simp [hm]
          · exact ⟨uset₀, by rw [dGet_set_ne _ _ _ _ huid]; exact hu, hm⟩
      · intro room rset cid₀ h1 h2
        simp only at h1 ⊢
        obtain ⟨connb, hb, hroomb⟩ := hRRS room rset cid₀ h1 h2
        by_cases hc : cid₀ = cid
        · subst hc
          rw [hb] at hg
          have hcb : connb = conn := Option.some.inj hg
          subst hcb
          exact ⟨_, dGet_set_self _ _ _, hroomb⟩
        · exact ⟨connb, by rw [dGet_set_ne _ _ _ _ hc]; exact hb, hroomb⟩
      · intro cid₀ conn₀ room hget hroom
        simp only at hget ⊢
        by_cases hc : cid₀ = cid
        · subst hc
          rw [dGet_set_self] at hget
          have hco : _ = conn₀ := Option.some.inj hget
          subst hco
          simp only at hroom
          exact hSR cid₀ conn room hg hroom
        · rw [dGet_set_ne _ _ _ _ hc] at hget
          exact hSR cid₀ conn₀ room hget hroom

theorem inv_subscribe {s : ManagerState} {cid room : String} (hInv : Inv s) :
    Inv (subscribe_to_conversation s cid room).1 := by
  obtain ⟨hUIC, hRRS, hSR⟩ := hInv
  cases hg : dGet s.connections cid with
  | none => rw [subscribe_eq_missing hg]; exact ⟨hUIC, hRRS, hSR⟩
  | some conn =>
    cases ha : is_authenticated conn with
    | false => rw [subscribe_eq_noauth hg ha]; exact ⟨hUIC, hRRS, hSR⟩
    | true =>
      rw [subscribe_eq_ok hg ha]
      refine ⟨?_, ?_, ?_⟩
      · intro cid₀ conn₀ uid₀ hget hauth huser
        simp only at hget hauth huser ⊢
        by_cases hc : cid₀ = cid
        · subst hc
          rw [dGet_set_self] at hget
          have hco : _ = conn₀ := Option.some.inj hget
          subst hco
          exact hUIC cid₀ conn uid₀ hg hauth huser
        · rw [dGet_set_ne _ _ _ _ hc] at hget
          exact hUIC cid₀ conn₀ uid₀ hget hauth huser
      · intro room₀ rset₀ cid₀ h1 h2
        simp only at h1 ⊢
        by_cases hcc : cid₀ = cid
        · subst hcc
          refine ⟨_, dGet_set_self _ _ _, ?_⟩
          by_cases hrr : room₀ = room
          · simp [hrr]
          · rw [dGet_set_ne _ _ _ _ hrr] at h1
            obtain ⟨connb, hb, hroomb⟩ := hRRS room₀ rset₀ cid₀ h1 h2
            rw [hb] at hg
            have hcb : connb = conn := Option.some.inj hg
            subst hcb
            simp [hroomb]
        · by_cases hrr : room₀ = room
          · subst hrr
            rw [dGet_set_self] at h1
            have hrs : _ = rset₀ := Option.some.inj h1
            subst hrs
            simp only [mem_addElem] at h2
            rcases h2 with h2 | h2
            · cases hc : dGet s.conversation_subscribers room₀ with
              | none => rw [hc] at h2; cases h2
              | some rs =>
                rw [hc] at h2
                simp only [Option.getD_some] at h2
                obtain ⟨connb, hb, hroomb⟩ := hRRS room₀ rs cid₀ hc h2
                exact ⟨connb, by rw [dGet_set_ne _ _ _ _ hcc]; exact hb, hroomb⟩
            · exact absurd h2 hcc
          · rw [dGet_set_ne _ _ _ _ hrr] at h1
            obtain ⟨connb, hb, hroomb⟩ := hRRS room₀ rset₀ cid₀ h1 h2
            exact ⟨connb, by rw [dGet_set_ne _ _ _ _ hcc]; exact hb, hroomb⟩
      · intro cid₀ conn₀ room₀ hget hroom
        simp only at hget ⊢
        by_cases hcc : cid₀ = cid
        · subst hcc
          rw [dGet_set_self] at hget
          have hco : _ = conn₀ := Option.some.inj hget
          subst hco
          simp only [mem_addElem] at hroom
          by_cases hrr : room₀ = room
          · subst hrr
            exact ⟨_, dGet_set_self _ _ _, by simp⟩
          · rcases hroom with hroom | hroom
            · obtain ⟨rsb, hb, hmb⟩ := hSR cid₀ conn room₀ hg hroom
              exact ⟨rsb, by rw [dGet_set_ne _ _ _ _ hrr]; exact hb, hmb⟩
            · exact absurd hroom hrr
        · rw [dGet_set_ne _ _ _ _ hcc] at hget
          obtain ⟨rsb, hb, hmb⟩ := hSR cid₀ conn₀ room₀ hget hroom
          by_cases hrr : room₀ = room
          · subst hrr
            refine ⟨_, dGet_set_self _ _ _, ?_⟩
            rw [hb]
            simp [hmb]
          · exact ⟨rsb, by rw [dGet_set_ne _ _ _ _ hrr]; exact hb, hmb⟩

theorem inv_unsubscribe {s : ManagerState} {cid room : String} (hInv : Inv s) :
    Inv (unsubscribe_from_conversation s cid room).1 := by
  obtain ⟨hUIC, hRRS, hSR⟩ := hInv
  cases hg : dGet s.connections cid with
  | none => rw [unsubscribe_eq_missing hg]; exact ⟨hUIC, hRRS, hSR⟩
  | some conn =>
    have hUIC' : ∀ (m : Dict (List String)),
        UserIndexComplete { connections := dSet s.connections cid { conn with subscribed := removeElem conn.subscribed room }, user_connections := s.user_connections, conversation_subscribers := m, userStore := s.userStore } := by
      intro m cid₀ conn₀ uid₀ hget hauth huser
      simp only at hget ⊢
      by_cases hc : cid₀ = cid
      · subst hc
        rw [dGet_set_self] at hget
        have hco : _ = conn₀ := Option.some.inj hget
        subst hco
        exact hUIC cid₀ conn uid₀ hg hauth huser
      · rw [dGet_set_ne _ _ _ _ hc] at hget
        exact hUIC cid₀ conn₀ uid₀ hget hauth huser
    cases hr : dGet s.conversation_subscribers room with
    | none =>
      rw [unsubscribe_eq_noroom hg hr]
      refine ⟨hUIC' _, ?_, ?_⟩
      · intro room₀ rset₀ cid₀ h1 h2
        simp only at h1 ⊢
        obtain ⟨connb, hb, hroomb⟩ := hRRS room₀ rset₀ cid₀ h1 h2
        by_cases hc : cid₀ = cid
        · subst hc
          rw [hb] at hg
          have hcb : connb = conn := Option.some.inj hg
          subst hcb
          have hrr : room₀ ≠ room := by
            intro hcc
            subst hcc
            rw [h1] at hr
            cases hr
          exact ⟨_, dGet_set_self _ _ _, by simp [hroomb, hrr]⟩
        · exact ⟨connb, by rw [dGet_set_ne _ _ _ _ hc]; exact hb, hroomb⟩
      · intro cid₀ conn₀ room₀ hget hroom
        simp only at hget ⊢
        by_cases hc : cid₀ = cid
        · subst hc
          rw [dGet_set_self] at hget
          have hco : _ = conn₀ := Option.some.inj hget
          subst hco
          simp only [mem_removeElem] at hroom
          exact hSR cid₀ conn room₀ hg hroom.1
        · rw [dGet_set_ne _ _ _ _ hc] at hget
          exact hSR cid₀ conn₀ room₀ hget hroom
    | some rset =>
      by_cases he : removeElem rset cid = []
      · rw [unsubscribe_eq_empty hg hr he]
        refine ⟨hUIC' _, ?_, ?_⟩
        · intro room₀ rset₀ cid₀ h1 h2
          simp only at h1 ⊢
          have hrr : room₀ ≠ room := by
            intro hcc
            subst hcc
            rw [dGet_erase_self] at h1
            cases h1
          rw [dGet_erase_ne _ _ _ hrr] at h1
          obtain ⟨connb, hb, hroomb⟩ := hRRS room₀ rset₀ cid₀ h1 h2
          by_cases hc : cid₀ = cid
          · subst hc
            rw [hb] at hg
            have hcb : connb = conn := Option.some.inj hg
            subst hcb
            exact ⟨_, dGet_set_self _ _ _, by simp [hroomb, hrr]⟩
          · exact ⟨connb, by rw [dGet_set_ne _ _ _ _ hc]; exact hb, hroomb⟩
        · intro cid₀ conn₀ room₀ hget hroom
          simp only at hget ⊢
          by_cases hc : cid₀ = cid
          · subst hc
            rw [dGet_set_self] at hget
            have hco : _ = conn₀ := Option.some.inj hget
            subst hco
            simp only [mem_removeElem] at hroom
            obtain ⟨rsb, hb, hmb⟩ := hSR cid₀ conn room₀ hg hroom.1
            exact ⟨rsb, by rw [dGet_erase_ne _ _ _ hroom.2]; exact hb, hmb⟩
          · rw [dGet_set_ne _ _ _ _ hc] at hget
            obtain ⟨rsb, hb, hmb⟩ := hSR cid₀ conn₀ room₀ hget hroom
            have hrr : room₀ ≠ room := by
              intro hcc
              subst hcc
              rw [hb] at hr
              have hbr : rsb = rset := Option.some.inj hr
              subst hbr
              exact hc (removeElem_nil_mem he hmb)
            exact ⟨rsb, by rw [dGet_erase_ne _ _ _ hrr]; exact hb, hmb⟩
      · rw [unsubscribe_eq_scrub hg hr he]
        refine ⟨hUIC' _, ?_, ?_⟩
        · intro room₀ rset₀ cid₀ h1 h2
          simp only at h1 ⊢
          by_cases hrr : room₀ = room
          · subst hrr
            rw [dGet_set_self] at h1
            have hrs : _ = rset₀ := Option.some.inj h1
            subst hrs
            simp only [mem_removeElem] at h2
            obtain ⟨connb, hb, hroomb⟩ := hRRS room₀ rset cid₀ hr h2.1
            exact ⟨connb, by rw [dGet_set_ne _ _ _ _ h2.2]; exact hb, hroomb⟩
          · rw [dGet_set_ne _ _ _ _ hrr] at h1
            obtain ⟨connb, hb, hroomb⟩ := hRRS room₀ rset₀ cid₀ h1 h2
            by_cases hc : cid₀ = cid
            · subst hc
              rw [hb] at hg
              have hcb : connb = conn := Option.some.inj hg
              subst hcb
              exact ⟨_, dGet_set_self _ _ _, by simp [hroomb, hrr]⟩
            · exact ⟨connb, by rw [dGet_set_ne _ _ _ _ hc]; exact hb, hroomb⟩
        · intro cid₀ conn₀ room₀ hget hroom
          simp only at hget ⊢
          by_cases hc : cid₀ = cid
          · subst hc
            rw [dGet_set_self] at hget
            have hco : _ = conn₀ := Option.some.inj hget
            subst hco
            simp only [mem_removeElem] at hroom
            obtain ⟨rsb, hb, hmb⟩ := hSR cid₀ conn room₀ hg hroom.1
            exact ⟨rsb, by rw [dGet_set_ne _ _ _ _ hroom.2]; exact hb, hmb⟩
          · rw [dGet_set_ne _ _ _ _ hc] at hget
            obtain ⟨rsb, hb, hmb⟩ := hSR cid₀ conn₀ room₀ hget hroom
            by_cases hrr : room₀ = room
            · subst hrr
              rw [hb] at hr
              have hbr : rsb = rset := Option.some.inj hr
              subst hbr
              refine ⟨removeElem rsb cid, dGet_set_self _ _ _, ?_⟩
              simp [hmb, hc]
            · exact ⟨rsb, by rw [dGet_set_ne _ _ _ _ hrr]; exact hb, hmb⟩

theorem refIn_congr {a b : ManagerState}
    (h : a.conversation_subscribers = b.conversation_subscribers)
    (room cid : String) : RefIn a room cid ↔ RefIn b room cid := by
  unfold RefIn
  rw [h]

theorem inv_remove {now : Nat} {s : ManagerState} {cid : String} (hInv : Inv s) :
    Inv (remove_connection now s cid) := by
  obtain ⟨hUIC, hRRS, hSR⟩ := hInv
  cases hg : dGet s.connections cid with
  | none => rw [remove_eq_missing hg]; exact ⟨hUIC, hRRS, hSR⟩
  | some conn =>
    rw [remove_eq_found hg]
    have hconn2 : (conn.subscribed.foldl (dropRoomRef cid) (dropUserRef now s cid conn)).connections = s.connections := by
      rw [foldDrop_connections, dropUserRef_connections]
    have hconv0 : (dropUserRef now s cid conn).conversation_subscribers = s.conversation_subscribers :=
      dropUserRef_conversation now s cid conn
    have huc2 : (conn.subscribed.foldl (dropRoomRef cid) (dropUserRef now s cid conn)).user_connections = (dropUserRef now s cid conn).user_connections :=
      foldDrop_user_connections _ _
    refine ⟨?_, ?_, ?_⟩
    · intro cid₀ conn₀ uid₀ hget hauth huser
      simp only at hget ⊢
      rw [hconn2] at hget
      by_cases hc : cid₀ = cid
      · subst hc
        rw [dGet_erase_self] at hget
        cases hget
      · rw [dGet_erase_ne _ _ _ hc] at hget
        have hEx := hUIC cid₀ conn₀ uid₀ hget hauth huser
        rw [huc2]
        exact dropUserRef_mem hc hEx
    · intro room rset cid₀ h1 h2
      simp only at h1 ⊢
      have hRef : RefIn (conn.subscribed.foldl (dropRoomRef cid) (dropUserRef now s cid conn)) room cid₀ := ⟨rset, h1, h2⟩
      have hc : cid₀ ≠ cid := by
        intro hcc
        subst hcc
        by_cases hrm : room ∈ conn.subscribed
        · exact foldDrop_kills conn.subscribed hrm hRef
        · have h3 : RefIn (dropUserRef now s cid₀ conn) room cid₀ :=
            (foldDrop_ref_off conn.subscribed (Or.inr hrm)).mp hRef
          have h4 : RefIn s room cid₀ := (refIn_congr hconv0 room cid₀).mp h3
          obtain ⟨rsb, hb, hmb⟩ := h4
          obtain ⟨connb, hcb, hroomb⟩ := hRRS room rsb cid₀ hb hmb
          rw [hcb] at hg
          have hbe : connb = conn := Option.some.inj hg
          subst hbe
          exact hrm hroomb
      have h3 : RefIn (dropUserRef now s cid conn) room cid₀ :=
        foldDrop_ref_mono conn.subscribed hRef
      have h4 : RefIn s room cid₀ := (refIn_congr hconv0 room cid₀).mp h3
      obtain ⟨rsb, hb, hmb⟩ := h4
      obtain ⟨connb, hcb, hroomb⟩ := hRRS room rsb cid₀ hb hmb
      refine ⟨connb, ?_, hroomb⟩
      rw [hconn2, dGet_erase_ne _ _ _ hc]
      exact hcb
    · intro cid₀ conn₀ room hget hroom
      simp only at hget ⊢
      rw [hconn2] at hget
      by_cases hc : cid₀ = cid
      · subst hc
        rw [dGet_erase_self] at hget
        cases hget
      · rw [dGet_erase_ne _ _ _ hc] at hget
        have hEx := hSR cid₀ conn₀ room hget hroom
        have h4 : RefIn s room cid₀ := hEx
        have h3 : RefIn (dropUserRef now s cid conn) room cid₀ :=
          (refIn_congr hconv0 room cid₀).mpr h4
        exact (foldDrop_ref_off conn.subscribed (Or.inl hc)).mpr h3

theorem inv_cleanup {now : Nat} {ids : List String} {s : ManagerState} (hInv : Inv s) :
    Inv (cleanup_inactive now s ids) := by
  unfold cleanup_inactive
  induction ids generalizing s with
  | nil => exact hInv
  | cons i rest ih =>
    simp only [List.foldl_cons]
    exact ih (inv_remove hInv)

theorem inv_applyOp {oracle : String → Option String} {s : ManagerState} {op : Op}
    (hInv : Inv s) (hf : freshOk s op) : Inv (applyOp oracle s op) := by
  cases op with
  | register cid => exact inv_register hInv hf
  | auth cid token now => exact inv_auth hInv
  | subscribe cid room => exact inv_subscribe hInv
  | unsubscribe cid room => exact inv_unsubscribe hInv
  | remove cid now => exact inv_remove hInv
  | cleanup ids now => exact inv_cleanup hInv

theorem reach_inv {oracle : String → Option String} {s : ManagerState}
    (h : Reach oracle s) : Inv s := by
  induction h with
  | init us =>
    refine ⟨?_, ?_, ?_⟩
    · intro cid conn uid hget _ _
      cases hget
    · intro room rset cid h1 _
      cases h1
    · intro cid conn room hget _
      cases hget
  | step op _ hf ih => exact inv_applyOp ih hf

/-! ## Claim C10 -/

/-- C10: `subscribe(connection_id, room)` succeeds only when the connection
is currently authenticated; both `subscribe` and `unsubscribe` are
idempotent (a second identical call leaves the same registry state and
returns the same result); and either call with an unknown connection id
returns false and changes no registry state. -/
theorem claim_c10 (s : ManagerState) (cid room : String) :
    (∀ conn, dGet s.connections cid = some conn → is_authenticated conn = false →
      subscribe_to_conversation s cid room = (s, false)) ∧
    (subscribe_to_conversation (subscribe_to_conversation s cid room).1 cid room =
      subscribe_to_conversation s cid room) ∧
    (unsubscribe_from_conversation (unsubscribe_from_conversation s cid room).1 cid room =
      unsubscribe_from_conversation s cid room) ∧
    (dGet s.connections cid = none →
      subscribe_to_conversation s cid room = (s, false) ∧
      unsubscribe_from_conversation s cid room = (s, false)) := by
  refine ⟨?_, ?_, ?_, ?_⟩
  · intro conn hg ha
    exact subscribe_eq_noauth hg ha
  · cases hg : dGet s.connections cid with
    | none => rw [subscribe_eq_missing hg, subscribe_eq_missing hg]
    | some conn =>
      cases ha : is_authenticated conn with
      | false => rw [subscribe_eq_noauth hg ha, subscribe_eq_noauth hg ha]
      | true =>
        rw [subscribe_eq_ok hg ha]
        have hg' : dGet (dSet s.connections cid { conn with subscribed := addElem conn.subscribed room }) cid = some { conn with subscribed := addElem conn.subscribed room } :=
          dGet_set_self _ _ _
        have ha' : is_authenticated { conn with subscribed := addElem conn.subscribed room } = true := ha
        rw [subscribe_eq_ok (s := { connections := dSet s.connections cid { conn with subscribed := addElem conn.subscribed room }, user_connections := s.user_connections, conversation_subscribers := dSet s.conversation_subscribers room (addElem ((dGet s.conversation_subscribers room).getD []) cid), userStore := s.userStore }) hg' ha']
        simp only [dGet_set_self, Option.getD_some, addElem_idem, dSet_set_same]
  · cases hg : dGet s.connections cid with
    | none => rw [unsubscribe_eq_missing hg, unsubscribe_eq_missing hg]
    | some conn =>
      cases hr : dGet s.conversation_subscribers room with
      | none =>
        rw [unsubscribe_eq_noroom hg hr]
        have hg' : dGet (dSet s.connections cid { conn with subscribed := removeElem conn.subscribed room }) cid = some { conn with subscribed := removeElem conn.subscribed room } :=
          dGet_set_self _ _ _
        rw [unsubscribe_eq_noroom (s := { s with connections := dSet s.connections cid { conn with subscribed := removeElem conn.subscribed room } }) hg' hr]
        simp only [removeElem_idem, dSet_set_same]
      | some rset =>
        by_cases he : removeElem rset cid = []
        · rw [unsubscribe_eq_empty hg hr he]
          have hg' : dGet (dSet s.connections cid { conn with subscribed := removeElem conn.subscribed room }) cid = some { conn with subscribed := removeElem conn.subscribed room } :=
            dGet_set_self _ _ _
          have hr' : dGet (dErase s.conversation_subscribers room) room = (none : Option (List String)) :=
            dGet_erase_self _ _
          rw [unsubscribe_eq_noroom (s := { connections := dSet s.connections cid { conn with subscribed := removeElem conn.subscribed room }, user_connections := s.user_connections, conversation_subscribers := dErase s.conversation_subscribers room, userStore := s.userStore }) hg' hr']
          simp only [removeElem_idem, dSet_set_same]
        · rw [unsubscribe_eq_scrub hg hr he]
          have hg' : dGet (dSet s.connections cid { conn with subscribed := removeElem conn.subscribed room }) cid = some { conn with subscribed := removeElem conn.subscribed room } :=
            dGet_set_self _ _ _
          have hr' : dGet (dSet s.conversation_subscribers room (removeElem rset cid)) room = some (removeElem rset cid) :=
            dGet_set_self _ _ _
          have he' : removeElem (removeElem rset cid) cid ≠ [] := by
            rw [removeElem_idem]
            exact he
          rw [unsubscribe_eq_scrub (s := { connections := dSet s.connections cid { conn with subscribed := removeElem conn.subscribed room }, user_connections := s.user_connections, conversation_subscribers := dSet s.conversation_subscribers room (removeElem rset cid), userStore := s.userStore }) hg' hr' he']
          simp only [removeElem_idem, dSet_set_same]
  · intro hg
    exact ⟨subscribe_eq_missing hg, unsubscribe_eq_missing hg⟩

/-- Witness for C10 at concrete inputs: a freshly registered (hence
unauthenticated) connection cannot subscribe, and unknown ids are silent
no-ops. -/
theorem claim_c10_witness :
    subscribe_to_conversation ⟨[("c", newConnection)], [], [], []⟩ "c" "r" =
      (⟨[("c", newConnection)], [], [], []⟩, false) ∧
    subscribe_to_conversation ⟨[], [], [], []⟩ "z" "r" = (⟨[], [], [], []⟩, false) ∧
    unsubscribe_from_conversation ⟨[], [], [], []⟩ "z" "r" = (⟨[], [], [], []⟩, false) := by
  refine ⟨?_, ?_, ?_⟩
  · exact (claim_c10 ⟨[("c", newConnection)], [], [], []⟩ "c" "r").1 newConnection (by decide) (by decide)
  · exact ((claim_c10 ⟨[], [], [], []⟩ "z" "r").2.2.2 (by decide)).1
  · exact ((claim_c10 ⟨[], [], [], []⟩ "z" "r").2.2.2 (by decide)).2

/-! ## Claim C9 -/

/-- C9: for distinct registered connections `A`, `B` and tokens resolving
to the same user `U`: after authenticating `A` then `B`, presence is
online and the user index maps `U` to both ids; after `remove(A)` presence
stays online with only `B` indexed; after `remove(B)` presence is offline
and a last-seen timestamp is persisted in the external user store. -/
theorem claim_c9 (A B U t1 t2 : String) (oracle : String → Option String)
    (us : Dict UserRec) (n1 n2 n3 n4 : Nat)
    (hAB : A ≠ B) (h1 : oracle t1 = some U) (h2 : oracle t2 = some U)
    (s0 s1 s2 s3 s4 : ManagerState)
    (hs0 : s0 = add_connection (add_connection ⟨[], [], [], us⟩ A) B)
    (hs1 : s1 = (authenticate_connection oracle n1 s0 A t1).1)
    (hs2 : s2 = (authenticate_connection oracle n2 s1 B t2).1)
    (hs3 : s3 = remove_connection n3 s2 A)
    (hs4 : s4 = remove_connection n4 s3 B) :
    (authenticate_connection oracle n1 s0 A t1).2 = true ∧
    (authenticate_connection oracle n2 s1 B t2).2 = true ∧
    get_user_status s2 U = .online ∧ dGet s2.user_connections U = some [A, B] ∧
    get_user_status s3 U = .online ∧ dGet s3.user_connections U = some [B] ∧
    get_user_status s4 U = .offline ∧
    dGet s4.userStore U = some ⟨.offline, some n4⟩ := by
  have hBA : B ≠ A := Ne.symm hAB
  have e0 : s0 = ⟨[(A, newConnection), (B, newConnection)], [], [], us⟩ := by
    rw [hs0]
    simp [add_connection, dSet, hAB]
  have hgA : dGet s0.connections A = some newConnection := by
    rw [e0]
    simp [dGet]
  have eauth1 := @auth_eq_success oracle n1 s0 A t1 newConnection U hgA h1
  have e1 : s1 = ⟨[(A, ⟨some U, true, []⟩), (B, newConnection)], [(U, [A])], [],
      dSet us U ⟨.online, some n1⟩⟩ := by
    rw [hs1, eauth1, e0]
    simp [dSet, dGet, hAB, addElem, newConnection]
  have hgB : dGet s1.connections B = some newConnection := by
    rw [e1]
    simp [dGet, hAB]
  have eauth2 := @auth_eq_success oracle n2 s1 B t2 newConnection U hgB h2
  have e2 : s2 = ⟨[(A, ⟨some U, true, []⟩), (B, ⟨some U, true, []⟩)], [(U, [A, B])], [],
      dSet (dSet us U ⟨.online, some n1⟩) U ⟨.online, some n2⟩⟩ := by
    rw [hs2, eauth2, e1]
    simp [dSet, dGet, hAB, hBA, addElem, newConnection]
  have hgA2 : dGet s2.connections A = some ⟨some U, true, []⟩ := by
    rw [e2]
    simp [dGet]
  have e3 : s3 = ⟨[(B, ⟨some U, true, []⟩)], [(U, [B])], [],
      dSet (dSet us U ⟨.online, some n1⟩) U ⟨.online, some n2⟩⟩ := by
    rw [hs3, remove_eq_found hgA2]
    have hdu : dropUserRef n3 s2 A ⟨some U, true, []⟩ =
        { s2 with user_connections := dSet s2.user_connections U (removeElem [A, B] A) } :=
      @dropUserRef_scrub n3 s2 A ⟨some U, true, []⟩ U [A, B] rfl
        (by rw [e2]; simp [dGet]) (by simp [removeElem, hBA])
    simp only [List.foldl_nil]
    rw [hdu, e2]
    simp [dSet, dGet, dErase, removeElem, hAB, hBA]
  have hgB3 : dGet s3.connections B = some ⟨some U, true, []⟩ := by
    rw [e3]
    simp [dGet]
  have e4 : s4 = ⟨[], [], [],
      dSet (dSet (dSet us U ⟨.online, some n1⟩) U ⟨.online, some n2⟩) U ⟨.offline, some n4⟩⟩ := by
    rw [hs4, remove_eq_found hgB3]
    have hdu : dropUserRef n4 s3 B ⟨some U, true, []⟩ =
        { s3 with user_connections := dErase s3.user_connections U, userStore := dSet s3.userStore U ⟨.offline, some n4⟩ } :=
      @dropUserRef_empty n4 s3 B ⟨some U, true, []⟩ U [B] rfl
        (by rw [e3]; simp [dGet]) (by simp [removeElem])
    simp only [List.foldl_nil]
    rw [hdu, e3]
    simp [dSet, dGet, dErase, removeElem]
  refine ⟨?_, ?_, ?_, ?_, ?_, ?_, ?_, ?_⟩
  · rw [eauth1]
  · rw [eauth2]
  · rw [e2]
    simp [get_user_status, dGet]
  · rw [e2]
    simp [dGet]
  · rw [e3]
    simp [get_user_status, dGet]
  · rw [e3]
    simp [dGet]
  · rw [e4]
    simp [get_user_status, dGet]
  · rw [e4]
    simp [dGet]

/-- A concrete token verifier used by witnesses. -/
def oracleW : String → Option String :=
  fun t => if t = "t" then some "u" else none

/-- Witness for C9 at concrete inputs. -/
theorem claim_c9_witness :
    get_user_status
      (remove_connection 3
        (remove_connection 2
          (authenticate_connection oracleW 1
            (authenticate_connection oracleW 0
              (add_connection (add_connection ⟨[], [], [], []⟩ "a") "b")
              "a" "t").1
            "b" "t").1
          "a")
        "b")
      "u" = UserStatus.offline := by
  have h := claim_c9 "a" "b" "u" "t" "t" oracleW [] 0 1 2 3
    (by decide) (by simp [oracleW]) (by simp [oracleW])
    _ _ _ _ _ rfl rfl rfl rfl rfl
  exact h.2.2.2.2.2.2.1

/-! ## Claims C5 and C8 -/

/-- The per-candidate eligibility test of `send_to_conversation`: the
recipient still exists, is authenticated, and is not excluded. -/
def eligOK (s : ManagerState) (excl : Option String) (cid : String) : Bool :=
  match dGet s.connections cid with
  | some conn => is_authenticated conn && !excludedUser excl conn
  | none => false

theorem send_to_connection_pure (f : String → Bool) (st : ManagerState) (cid : String) :
    send_to_connection (pureT f) st cid =
      (st, (dGet st.connections cid).isSome && f cid) := by
  unfold send_to_connection pureT
  cases h : dGet st.connections cid <;> simp

theorem sendConvStep_pure (f : String → Bool) (excl : Option String)
    (s : ManagerState) (n : Nat) (tr : List (String × Option Bool)) (cid : String) :
    sendConvStep (pureT f) excl (s, n, tr) cid =
      (s, n + (if eligOK s excl cid && f cid then 1 else 0),
        tr ++ [(cid, if eligOK s excl cid then some (f cid) else none)]) := by
  unfold sendConvStep eligOK
  cases h : dGet s.connections cid with
  | none => simp
  | some conn =>
    by_cases ha : is_authenticated conn
    · by_cases hx : excludedUser excl conn
      · simp [ha, hx]
      · simp [ha, hx, send_to_connection_pure, h]
    · simp [ha]

theorem sendConv_pure_go (f : String → Bool) (excl : Option String)
    (s : ManagerState) (ids : List String) (n : Nat)
    (tr : List (String × Option Bool)) :
    ids.foldl (sendConvStep (pureT f) excl) (s, n, tr) =
      (s, n + ((ids.filter (eligOK s excl)).filter f).length,
        tr ++ ids.map (fun cid => (cid, if eligOK s excl cid then some (f cid) else none))) := by
  induction ids generalizing n tr with
  | nil => simp
  | cons cid rest ih =>
    simp only [List.foldl_cons, sendConvStep_pure]
    rw [ih]
    by_cases he : eligOK s excl cid
    · by_cases hf : f cid
      · simp [he, hf, List.filter_cons, Nat.add_assoc, Nat.add_comm 1]
      · simp [he, hf, List.filter_cons]
    · simp [he, List.filter_cons]

/-- C5: with a non-mutating transport whose per-recipient outcome is `f`,
`send_to_conversation` leaves the registry unchanged, visits exactly the
snapshot of the room's subscriber set, attempts delivery to exactly the
currently-subscribed, authenticated, non-excluded recipients, and returns
the number of recipients whose transport write succeeded — one failure
never aborts the rest.  In particular, for subscribers `a`, `b`, `c` all
authenticated where only the write to `b` throws, it returns 2 and `a`
and `c` received the bytes. -/
theorem claim_c5 :
    (∀ (f : String → Bool) (s : ManagerState) (room : String) (excl : Option String),
      send_to_conversation (pureT f) s room excl =
        (s, ((((dGet s.conversation_subscribers room).getD []).filter (eligOK s excl)).filter f).length,
          ((dGet s.conversation_subscribers room).getD []).map
            (fun cid => (cid, if eligOK s excl cid then some (f cid) else none)))) ∧
    send_to_conversation (pureT (fun cid => cid ≠ "b"))
        ⟨[("a", ⟨some "u1", true, ["r"]⟩), ("b", ⟨some "u2", true, ["r"]⟩), ("c", ⟨some "u3", true, ["r"]⟩)],
         [("u1", ["a"]), ("u2", ["b"]), ("u3", ["c"])], [("r", ["a", "b", "c"])], []⟩
        "r" none =
      (⟨[("a", ⟨some "u1", true, ["r"]⟩), ("b", ⟨some "u2", true, ["r"]⟩), ("c", ⟨some "u3", true, ["r"]⟩)],
         [("u1", ["a"]), ("u2", ["b"]), ("u3", ["c"])], [("r", ["a", "b", "c"])], []⟩,
        2, [("a", some true), ("b", some false), ("c", some true)]) := by
  constructor
  · intro f s room excl
    unfold send_to_conversation
    rw [sendConv_pure_go]
    simp
  · decide

theorem sendUserStep_eq (t : Transport) (st : ManagerState) (n : Nat)
    (tr : List (String × Bool)) (cid : String) {st1 : ManagerState} {ok : Bool}
    (hX : send_to_connection t st cid = (st1, ok)) :
    sendUserStep t (st, n, tr) cid = (st1, n + (if ok then 1 else 0), tr ++ [(cid, ok)]) := by
  unfold sendUserStep
  rw [hX]

theorem send_to_user_go_fst (t : Transport) (ids : List String) :
    ∀ (st : ManagerState) (n : Nat) (tr : List (String × Bool)),
      ((ids.foldl (sendUserStep t) (st, n, tr)).2.2).map Prod.fst =
        tr.map Prod.fst ++ ids := by
  induction ids with
  | nil => intro st n tr; simp
  | cons cid rest ih =>
    intro st n tr
    simp only [List.foldl_cons]
    rcases hX : send_to_connection t st cid with ⟨st1, ok⟩
    rw [sendUserStep_eq t st n tr cid hX, ih]
    simp

theorem sendConvStep_trace (t : Transport) (excl : Option String)
    (st : ManagerState) (n : Nat) (tr : List (String × Option Bool)) (cid : String) :
    ∃ v, (sendConvStep t excl (st, n, tr) cid).2.2 = tr ++ [(cid, v)] := by
  unfold sendConvStep
  cases h : dGet st.connections cid with
  | none => exact ⟨none, rfl⟩
  | some conn =>
    by_cases ha : is_authenticated conn
    · by_cases hx : excludedUser excl conn
      · simp only [ha, hx]
        exact ⟨none, by simp⟩
      · rcases hX : send_to_connection t st cid with ⟨st1, ok⟩
        simp only [ha, hx, hX]
        exact ⟨some ok, by simp⟩
    · simp only [ha]
      exact ⟨none, by simp⟩

theorem sendConv_go_fst (t : Transport) (excl : Option String) (ids : List String) :
    ∀ (st : ManagerState) (n : Nat) (tr : List (String × Option Bool)),
      ((ids.foldl (sendConvStep t excl) (st, n, tr)).2.2).map Prod.fst =
        tr.map Prod.fst ++ ids := by
  induction ids with
  | nil => intro st n tr; simp
  | cons cid rest ih =>
    intro st n tr
    simp only [List.foldl_cons]
    obtain ⟨v, hv⟩ := sendConvStep_trace t excl st n tr cid
    rcases hstep : sendConvStep t excl (st, n, tr) cid with ⟨st1, n1, tr1⟩
    rw [hstep] at hv
    simp only at hv
    rw [ih st1 n1 tr1, hv]
    simp

/-- C8 (amended): `send_to_user` and `send_to_conversation` iterate a
snapshot copy — whatever registry mutation the transport performs during
delivery, the ids visited are exactly the pre-call snapshot of the
relevant index set. -/
theorem claim_c8_amended (t : Transport) (s : ManagerState) (uid room : String)
    (excl : Option String) :
    ((send_to_user t s uid).2.2).map Prod.fst = (dGet s.user_connections uid).getD [] ∧
    ((send_to_conversation t s room excl).2.2).map Prod.fst =
      (dGet s.conversation_subscribers room).getD [] := by
  constructor
  · unfold send_to_user
    rw [send_to_user_go_fst]
    simp
  · unfold send_to_conversation
    rw [sendConv_go_fst]
    simp

/-- A transport modelling a concurrent `remove` interleaved at the `await`
of a send: the write succeeds but connection `"b"` vanishes from the
table meanwhile. -/
def tMutB : Transport :=
  fun st _ => ({ st with connections := dErase st.connections "b" }, true)

/-- C8 counterexample: `broadcast_to_all` iterates the LIVE connection
dict, so when delivery to `"a"` removes `"b"`, the iteration observes the
mutation (CPython raises `RuntimeError: dictionary changed size during
iteration`, modelled as `.error ()`), refuting the claim that all three
fan-out operations iterate a snapshot; under the very same mutation the
snapshot-copying `send_to_user` still visits both ids. -/
theorem claim_c8_counterexample :
    broadcast_to_all tMutB
        ⟨[("a", ⟨some "u", true, []⟩), ("b", ⟨some "u", true, []⟩)],
         [("u", ["a", "b"])], [], []⟩ true = .error () ∧
    ((send_to_user tMutB
        ⟨[("a", ⟨some "u", true, []⟩), ("b", ⟨some "u", true, []⟩)],
         [("u", ["a", "b"])], [], []⟩ "u").2.2).map Prod.fst = ["a", "b"] := by
  constructor
  · rfl
  · rfl

/-! ## Claims C1 and C2 -/

/-- A token verifier binding `t1` and `t2` to two different users, used to
exercise re-authentication of one connection under a new identity. -/
def oracleCE : String → Option String :=
  fun t => if t = "t1" then some "u1" else if t = "t2" then some "u2" else none

/-- C1 counterexample: register connection `c`, authenticate it as `u1`,
re-authenticate it as `u2`, then `remove(c)` — afterwards the user index
STILL references `c` under `u1` (the claim says `c` is absent from every
set in the user index, explicitly "including repeated authenticate calls
on c"). -/
theorem claim_c1_counterexample :
    dGet (applyOps oracleCE
        [.register "c", .auth "c" "t1" 0, .auth "c" "t2" 1, .remove "c" 2]
        ⟨[], [], [], []⟩).user_connections "u1" = some ["c"] := by
  decide

/-- C1 (amended): on every reachable registry state, after
`remove(connection_id)` the id is absent from the connection table, from
every room-index set, and from the user-index set of the user it was
bound to at removal time (stale entries under users it was bound to
before a re-authentication may survive, per the counterexample); and
`remove()` of an id not in the connection table is a benign no-op. -/
theorem claim_c1_amended {oracle : String → Option String} {s : ManagerState}
    (hreach : Reach oracle s) (cid : String) (now : Nat) :
    dGet (remove_connection now s cid).connections cid = none ∧
    (∀ room rset, dGet (remove_connection now s cid).conversation_subscribers room = some rset → cid ∉ rset) ∧
    (∀ conn uid, dGet s.connections cid = some conn → conn.user = some uid →
      ∀ uset, dGet (remove_connection now s cid).user_connections uid = some uset → cid ∉ uset) ∧
    (dGet s.connections cid = none → remove_connection now s cid = s) := by
  obtain ⟨hUIC, hRRS, hSR⟩ := reach_inv hreach
  cases hg : dGet s.connections cid with
  | none =>
    rw [remove_eq_missing hg]
    refine ⟨hg, ?_, ?_, fun _ => rfl⟩
    · intro room rset h1 hmem
      obtain ⟨conn, hc, _⟩ := hRRS room rset cid h1 hmem
      simp [hg] at hc
    · intro conn uid hc
      simp [hg] at hc
  | some conn =>
    rw [remove_eq_found hg]
    have hconn2 : (conn.subscribed.foldl (dropRoomRef cid) (dropUserRef now s cid conn)).connections = s.connections := by
      rw [foldDrop_connections, dropUserRef_connections]
    have hconv0 : (dropUserRef now s cid conn).conversation_subscribers = s.conversation_subscribers :=
      dropUserRef_conversation now s cid conn
    have huc2 : (conn.subscribed.foldl (dropRoomRef cid) (dropUserRef now s cid conn)).user_connections = (dropUserRef now s cid conn).user_connections :=
      foldDrop_user_connections _ _
    refine ⟨?_, ?_, ?_, ?_⟩
    · simp only
      rw [hconn2]
      exact dGet_erase_self _ _
    · intro room rset h1 hmem
      simp only at h1
      have hRef : RefIn (conn.subscribed.foldl (dropRoomRef cid) (dropUserRef now s cid conn)) room cid := ⟨rset, h1, hmem⟩
      by_cases hrm : room ∈ conn.subscribed
      · exact foldDrop_kills conn.subscribed hrm hRef
      · have h3 : RefIn (dropUserRef now s cid conn) room cid :=
          (foldDrop_ref_off conn.subscribed (Or.inr hrm)).mp hRef
        have h4 : RefIn s room cid := (refIn_congr hconv0 room cid).mp h3
        obtain ⟨rsb, hb, hmb⟩ := h4
        obtain ⟨connb, hcb, hroomb⟩ := hRRS room rsb cid hb hmb
        rw [hcb] at hg
        have hbe : connb = conn := Option.some.inj hg
        subst hbe
        exact hrm hroomb
    · intro conn' uid hc hu uset hget
      have hce : conn = conn' := Option.some.inj hc
      subst hce
      simp only at hget
      rw [huc2] at hget
      exact dropUserRef_kills hu uset hget
    · intro hnone
      simp at hnone

/-- Witness for C1 (amended) at a concrete reachable state. -/
theorem claim_c1_witness :
    dGet (remove_connection 0 ⟨[], [], [], []⟩ "x").connections "x" = none ∧
    remove_connection 0 ⟨[], [], [], []⟩ "x" = ⟨[], [], [], []⟩ := by
  have h := @claim_c1_amended oracleW _ (Reach.init []) "x" 0
  exact ⟨h.1, h.2.2.2 (by decide)⟩

theorem send_to_user_go_state (f : String → Bool) (ids : List String) :
    ∀ (st : ManagerState) (n : Nat) (tr : List (String × Bool)),
      (ids.foldl (sendUserStep (pureT f)) (st, n, tr)).1 = st := by
  induction ids with
  | nil => intro st n tr; rfl
  | cons cid rest ih =>
    intro st n tr
    simp only [List.foldl_cons]
    rw [sendUserStep_eq (pureT f) st n tr cid (send_to_connection_pure f st cid)]
    exact ih st _ _

theorem broadcastLoop_nil {t : Transport} {b : Bool} {sz : Nat}
    {st : ManagerState} {n : Nat} (h : st.connections.length = sz) :
    broadcastLoop t b sz [] st n = .ok (st, n) := by
  conv_lhs => unfold broadcastLoop
  rw [if_pos h]

theorem broadcastLoop_cons_none {t : Transport} {b : Bool} {sz : Nat}
    {cid : String} {rest : List String} {st : ManagerState} {n : Nat}
    (h : st.connections.length = sz) (hg : dGet st.connections cid = none) :
    broadcastLoop t b sz (cid :: rest) st n = broadcastLoop t b sz rest st n := by
  conv_lhs => unfold broadcastLoop
  rw [if_pos h, hg]

theorem broadcastLoop_cons_skip {t : Transport} {b : Bool} {sz : Nat}
    {cid : String} {rest : List String} {st : ManagerState} {n : Nat}
    {conn : ConnState} (h : st.connections.length = sz)
    (hg : dGet st.connections cid = some conn)
    (hskip : (b && !is_authenticated conn) = true) :
    broadcastLoop t b sz (cid :: rest) st n = broadcastLoop t b sz rest st n := by
  conv_lhs => unfold broadcastLoop
  rw [if_pos h, hg]
  simp [hskip]

theorem broadcastLoop_cons_send {t : Transport} {b : Bool} {sz : Nat}
    {cid : String} {rest : List String} {st st1 : ManagerState} {n : Nat}
    {conn : ConnState} {ok : Bool} (h : st.connections.length = sz)
    (hg : dGet st.connections cid = some conn)
    (hskip : (b && !is_authenticated conn) = false)
    (hX : send_to_connection t st cid = (st1, ok)) :
    broadcastLoop t b sz (cid :: rest) st n =
      broadcastLoop t b sz rest st1 (n + (if ok then 1 else 0)) := by
  conv_lhs => unfold broadcastLoop
  rw [if_pos h, hg]
  simp [hskip, hX]

theorem broadcastLoop_pure (f : String → Bool) (b : Bool) (sz : Nat)
    (keys : List String) :
    ∀ (st : ManagerState) (n : Nat), st.connections.length = sz →
      ∃ m, broadcastLoop (pureT f) b sz keys st n = .ok (st, m) := by
  induction keys with
  | nil =>
    intro st n h
    exact ⟨n, broadcastLoop_nil h⟩
  | cons cid rest ih =>
    intro st n h
    cases hg : dGet st.connections cid with
    | none =>
      rw [broadcastLoop_cons_none h hg]
      exact ih st n h
    | some conn =>
      by_cases hb : (b && !is_authenticated conn) = true
      · rw [broadcastLoop_cons_skip h hg hb]
        exact ih st n h
      · rw [broadcastLoop_cons_send h hg (by simpa using hb) (send_to_connection_pure f st cid)]
        exact ih st _ h

/-- C2 counterexample: after `register(c)` and `authenticate(c)` as `u1`
the claimed user-index invariant (1) holds; applying one more registry
operation — `authenticate(c)` with a token for a different user `u2` —
produces a state in which it fails (`c` sits in the index under `u1`
while existing, authenticated and bound to `u2`), so authenticate does
not preserve invariant (1) as stated. -/
theorem claim_c2_counterexample :
    UserIndexExact (applyOps oracleCE [.register "c", .auth "c" "t1" 0] ⟨[], [], [], []⟩) ∧
    RoomRefsExist (applyOps oracleCE [.register "c", .auth "c" "t1" 0] ⟨[], [], [], []⟩) ∧
    ¬ UserIndexExact (applyOps oracleCE [.register "c", .auth "c" "t1" 0, .auth "c" "t2" 1] ⟨[], [], [], []⟩) := by
  have e1 : applyOps oracleCE [.register "c", .auth "c" "t1" 0] ⟨[], [], [], []⟩ =
      ⟨[("c", ⟨some "u1", true, []⟩)], [("u1", ["c"])], [], [("u1", ⟨.online, some 0⟩)]⟩ := by
    decide
  have e2 : applyOps oracleCE [.register "c", .auth "c" "t1" 0, .auth "c" "t2" 1] ⟨[], [], [], []⟩ =
      ⟨[("c", ⟨some "u2", true, []⟩)], [("u1", ["c"]), ("u2", ["c"])], [],
        [("u1", ⟨.online, some 0⟩), ("u2", ⟨.online, some 1⟩)]⟩ := by
    decide
  refine ⟨?_, ?_, ?_⟩
  · rw [e1]
    intro uid cid
    constructor
    · rintro ⟨uset, hu, hm⟩
      by_cases h : "u1" = uid
      · subst h
        have huset : ["c"] = uset := by simpa [dGet] using hu
        rw [← huset] at hm
        simp only [List.mem_singleton] at hm
        subst hm
        exact ⟨⟨some "u1", true, []⟩, by simp [dGet], rfl, rfl⟩
      · simp [dGet, h] at hu
    · rintro ⟨conn, hc, hauth, huser⟩
      by_cases h : "c" = cid
      · subst h
        have hcc : (⟨some "u1", true, []⟩ : ConnState) = conn := by simpa [dGet] using hc
        rw [← hcc] at huser
        have huid : "u1" = uid := by simp at huser; exact huser
        subst huid
        exact ⟨["c"], by simp [dGet], by simp⟩
      · simp [dGet, h] at hc
  · rw [e1]
    intro room rset cid h1
    cases h1
  · rw [e2]
    intro hEx
    obtain ⟨conn, hc, hauth, huser⟩ := (hEx "u1" "c").mp ⟨["c"], by simp [dGet], by simp⟩
    have hcc : (⟨some "u2", true, []⟩ : ConnState) = conn := by simpa [dGet] using hc
    rw [← hcc] at huser
    simp at huser

/-- C2 (amended): every reachable registry state satisfies the half of
invariant (1) that the code maintains (every existing authenticated
connection bound to `u` is indexed under `u` — the converse fails after
re-authentication, per the counterexample) and all of invariant (2)
(room-index references point at existing connections); every further
registry operation preserves both; and the send/broadcast operations do
not mutate registry state at all when the transport does not. -/
theorem claim_c2_amended {oracle : String → Option String} {s : ManagerState}
    (hreach : Reach oracle s) :
    (UserIndexComplete s ∧ RoomRefsExist s) ∧
    (∀ op, freshOk s op →
      UserIndexComplete (applyOp oracle s op) ∧ RoomRefsExist (applyOp oracle s op)) ∧
    (∀ (f : String → Bool) uid, (send_to_user (pureT f) s uid).1 = s) ∧
    (∀ (f : String → Bool) room excl, (send_to_conversation (pureT f) s room excl).1 = s) ∧
    (∀ (f : String → Bool) b, ∃ n, broadcast_to_all (pureT f) s b = .ok (s, n)) := by
  obtain ⟨hUIC, hRRS, hSR⟩ := reach_inv hreach
  refine ⟨⟨hUIC, roomRefsExist_of_subscribed hRRS⟩, ?_, ?_, ?_, ?_⟩
  · intro op hf
    obtain ⟨h1, h2, h3⟩ := @inv_applyOp oracle s op ⟨hUIC, hRRS, hSR⟩ hf
    exact ⟨h1, roomRefsExist_of_subscribed h2⟩
  · intro f uid
    unfold send_to_user
    exact send_to_user_go_state f _ s 0 []
  · intro f room excl
    unfold send_to_conversation
    rw [sendConv_pure_go]
  · intro f b
    unfold broadcast_to_all
    exact broadcastLoop_pure f b s.connections.length (dKeys s.connections) s 0 rfl

/-- Witness for C2 (amended) at a concrete reachable state. -/
theorem claim_c2_witness :
    (send_to_user (pureT (fun _ => true)) ⟨[], [], [], []⟩ "u").1 = ⟨[], [], [], []⟩ ∧
    (∃ n, broadcast_to_all (pureT (fun _ => true)) ⟨[], [], [], []⟩ true =
      .ok (⟨[], [], [], []⟩, n)) :=
  ⟨(@claim_c2_amended oracleW _ (Reach.init [])).2.2.1 _ "u",
   (@claim_c2_amended oracleW _ (Reach.init [])).2.2.2.2 _ true⟩

/-! ## Dispatcher helper lemmas -/

theorem auth_keys (oracle : String → Option String) (now : Nat) (s : ManagerState)
    (cid token : String) :
    dKeys (authenticate_connection oracle now s cid token).1.connections = dKeys s.connections := by
  cases hg : dGet s.connections cid with
  | none => rw [auth_eq_missing hg]
  | some conn =>
    cases ho : oracle token with
    | none => rw [auth_eq_badtoken hg ho]
    | some uid =>
      rw [auth_eq_success hg ho]
      exact dKeys_set _ _ _ (by simp [hg])

theorem subscribe_keys (s : ManagerState) (cid room : String) :
    dKeys (subscribe_to_conversation s cid room).1.connections = dKeys s.connections := by
  cases hg : dGet s.connections cid with
  | none => rw [subscribe_eq_missing hg]
  | some conn =>
    cases ha : is_authenticated conn with
    | false => rw [subscribe_eq_noauth hg ha]
    | true =>
      rw [subscribe_eq_ok hg ha]
      exact dKeys_set _ _ _ (by simp [hg])

theorem unsubscribe_keys (s : ManagerState) (cid room : String) :
    dKeys (unsubscribe_from_conversation s cid room).1.connections = dKeys s.connections := by
  cases hg : dGet s.connections cid with
  | none => rw [unsubscribe_eq_missing hg]
  | some conn =>
    cases hr : dGet s.conversation_subscribers room with
    | none =>
      rw [unsubscribe_eq_noroom hg hr]
      exact dKeys_set _ _ _ (by simp [hg])
    | some rset =>
      by_cases he : removeElem rset cid = []
      · rw [unsubscribe_eq_empty hg hr he]
        exact dKeys_set _ _ _ (by simp [hg])
      · rw [unsubscribe_eq_scrub hg hr he]
        exact dKeys_set _ _ _ (by simp [hg])

/-- Structural facts about `handle_request`: the executed (search) body
never mutates the registry, so every connection-table key is preserved;
when it raises, it raised before sending any reply; and it never answers
`UNKNOWN_MESSAGE_TYPE` — the singledispatch base is unreachable, because
an overload is registered for `str` and the dispatch argument
(`connection_id`) is always a `str`. -/
theorem handle_request_props (oracle : String → Option String) (svc : String → SvcRes)
    (now : Nat) (s : ManagerState) (cid : String) (cls : String) (data : Json) :
    dKeys (handle_request oracle svc now s cid cls data).state.connections = dKeys s.connections ∧
    ((handle_request oracle svc now s cid cls data).raised = true →
      (handle_request oracle svc now s cid cls data).replies = []) ∧
    Reply.err "UNKNOWN_MESSAGE_TYPE" ∉ (handle_request oracle svc now s cid cls data).replies := by
  unfold handle_request
  cases hR : require_auth s cid with
  | unauth => exact ⟨rfl, by simp, by simp⟩
  | missingUser => exact ⟨rfl, by simp, by simp⟩
  | user uid =>
    by_cases h1 : cls = "SearchUsersRequest"
    · rw [if_pos h1]
      cases hS : svc cls with
      | exn => exact ⟨by simp [hS], by simp [hS], by simp [hS]⟩
      | ok => exact ⟨by simp [hS], by simp [hS], by simp [hS]⟩
      | fail => exact ⟨by simp [hS], by simp [hS], by simp [hS]⟩
    · rw [if_neg h1]
      exact ⟨rfl, by simp, by simp⟩

/-- `handle_message` on a well-shaped, recognized, valid envelope
dispatches to `handle_request` and converts a raised exception into an
`INVALID_MESSAGE_FORMAT` reply (the inner `except` also covers the
handler call). -/
theorem handle_message_dispatch {oracle : String → Option String}
    {svc : String → SvcRes} {now : Nat} {s : ManagerState} {cid : String}
    {fields : List (String × Json)} {mt : Json} {cls : String} {d : Json}
    (hty : jGet fields "type" = some mt) (hlk : typeLookup mt = .ok (some cls))
    (hd : (jGet fields "data").getD (.obj []) = d) (hv : validate cls d = true) :
    handle_message oracle svc now s cid (.val (.obj fields)) =
      (if (handle_request oracle svc now s cid cls d).raised
        then ((handle_request oracle svc now s cid cls d).state,
          (handle_request oracle svc now s cid cls d).replies ++ [.err "INVALID_MESSAGE_FORMAT"])
        else ((handle_request oracle svc now s cid cls d).state,
          (handle_request oracle svc now s cid cls d).replies)) := by
  unfold handle_message
  simp [hty, hd, hlk, hv]

/-! ## Claims C3, C4, C6, C7 -/

/-- A registry state with one authenticated connection `c` of user `u`
(the user present in the external store), used as concrete input. -/
def sAuth : ManagerState :=
  ⟨[("c", ⟨some "u", true, []⟩)], [("u", ["c"])], [], [("u", ⟨.online, some 0⟩)]⟩

/-- C3 counterexample: a recognized, valid `send_message` envelope whose
handler raises is answered `INVALID_MESSAGE_FORMAT`, not `SERVER_ERROR` —
the handler call sits inside the same `try` as pydantic validation, so
the inner `except` wins over the outer `SERVER_ERROR` one. -/
theorem claim_c3_counterexample :
    handle_message (fun _ => none) (fun _ => .exn) 0 sAuth "c"
      (.val (.obj [("type", .str "send_message"),
        ("data", .obj [("conversation_id", .str "r"), ("content", .str "hi")])])) =
      (sAuth, [.err "INVALID_MESSAGE_FORMAT"]) ∧
    Reply.err "INVALID_MESSAGE_FORMAT" ≠ Reply.err "SERVER_ERROR" := by
  exact ⟨rfl, by decide⟩

/-- C3 (amended): for every recognized envelope with a valid payload
whose dispatched handler raises, the dispatch boundary catches the
exception and replies with a single error envelope — whose code is
`INVALID_MESSAGE_FORMAT` (not `SERVER_ERROR` as claimed) — and no
connection is removed from the registry by the failure. -/
theorem claim_c3_amended (oracle : String → Option String) (svc : String → SvcRes)
    (now : Nat) (s : ManagerState) (cid : String)
    {fields : List (String × Json)} {mt : Json} {cls : String} {d : Json}
    (hty : jGet fields "type" = some mt) (hlk : typeLookup mt = .ok (some cls))
    (hd : (jGet fields "data").getD (.obj []) = d) (hv : validate cls d = true)
    (hraised : (handle_request oracle svc now s cid cls d).raised = true) :
    handle_message oracle svc now s cid (.val (.obj fields)) =
      ((handle_request oracle svc now s cid cls d).state, [.err "INVALID_MESSAGE_FORMAT"]) ∧
    dKeys (handle_request oracle svc now s cid cls d).state.connections =
      dKeys s.connections := by
  have hp := handle_request_props oracle svc now s cid cls d
  refine ⟨?_, hp.1⟩
  rw [handle_message_dispatch hty hlk hd hv, if_pos hraised, hp.2.1 hraised]
  rfl

/-- Witness for C3 (amended): a `get_contacts` request whose contact
service raises. -/
theorem claim_c3_witness :
    handle_message (fun _ => none) (fun _ => .exn) 0 sAuth "c"
      (.val (.obj [("type", .str "get_contacts"), ("data", .obj [])])) =
      (sAuth, [.err "INVALID_MESSAGE_FORMAT"]) := by
  have h := @claim_c3_amended (fun _ => none) (fun _ => .exn) 0 sAuth "c"
    [("type", .str "get_contacts"), ("data", .obj [])]
    (.str "get_contacts") "GetContactsRequest" (.obj [])
    rfl rfl rfl rfl rfl
  rw [h.1]
  rfl

/-- C4 counterexample: the table's key for authentication is `auth`, not
`authenticate`; and a `typing_start` envelope with a valid payload on an
authenticated connection — a kind the claim says is routed to its typing
handler — is instead answered `INVALID_MESSAGE_FORMAT`: the dispatched
(search) body raises `AttributeError` on `request.query`, so no kind's
dedicated handler is ever executed. -/
theorem claim_c4_counterexample :
    dGet message_types "authenticate" = none ∧
    handle_message (fun _ => none) (fun _ => .ok) 0 sAuth "c"
      (.val (.obj [("type", .str "typing_start"),
        ("data", .obj [("conversation_id", .str "r")])])) =
      (sAuth, [.err "INVALID_MESSAGE_FORMAT"]) := by
  exact ⟨rfl, rfl⟩

/-- C4 (amended): the closed table has exactly 28 kinds, keyed `auth` (not
`authenticate`); no recognized kind is ever answered
`UNKNOWN_MESSAGE_TYPE` (the singledispatch base is unreachable: dispatch
is on the class of `connection_id`, a `str`, for which an overload is
registered); but the kind-to-handler mapping is NOT one-to-one — all 15
overloads register under `str` and the last-registered `search_users`
body handles every request, so on an authenticated connection every valid
request of any kind other than `search_users` raises `AttributeError` on
`request.query` (and is answered `INVALID_MESSAGE_FORMAT` by the dispatch
boundary) instead of reaching a dedicated handler. -/
theorem claim_c4_amended :
    message_types.map Prod.fst =
      ["auth", "logout", "send_message", "edit_message", "delete_message",
       "mark_as_read", "join_conversation", "leave_conversation", "create_group",
       "create_direct_chat", "add_participants", "remove_participant",
       "typing_start", "typing_stop", "update_status", "get_conversations",
       "get_messages", "get_participants", "send_contact_request",
       "accept_contact_request", "decline_contact_request", "remove_contact",
       "block_user", "unblock_user", "get_contacts", "get_pending_requests",
       "get_blocked_users", "search_users"] ∧
    (∀ key cls, dGet message_types key = some cls →
      ∀ (oracle : String → Option String) (svc : String → SvcRes) (now : Nat)
        (s : ManagerState) (cid : String) (fields : List (String × Json)) (d : Json),
        jGet fields "type" = some (.str key) →
        (jGet fields "data").getD (.obj []) = d → validate cls d = true →
        Reply.err "UNKNOWN_MESSAGE_TYPE" ∉
          (handle_message oracle svc now s cid (.val (.obj fields))).2) ∧
    (∀ cls, cls ≠ "SearchUsersRequest" →
      ∀ (oracle : String → Option String) (svc : String → SvcRes) (now : Nat)
        (s : ManagerState) (cid : String) (uid : String) (d : Json),
        require_auth s cid = .user uid →
        handle_request oracle svc now s cid cls d = ⟨s, [], true⟩) := by
  refine ⟨rfl, ?_, ?_⟩
  · intro key cls hkey oracle svc now s cid fields d hty hd hv
    have hlk : typeLookup (.str key) = .ok (some cls) := by
      simp [typeLookup, hkey]
    rw [handle_message_dispatch hty hlk hd hv]
    have hp := handle_request_props oracle svc now s cid cls d
    by_cases hr : (handle_request oracle svc now s cid cls d).raised = true
    · rw [if_pos hr, hp.2.1 hr]
      simp
    · rw [if_neg hr]
      exact hp.2.2
  · intro cls hne oracle svc now s cid uid d hra
    unfold handle_request
    simp [hra, hne]

/-- Witness for C4 (amended): a valid `join_conversation` envelope is not
answered `UNKNOWN_MESSAGE_TYPE`; on the authenticated state the request
raises in the executed search body instead of joining. -/
theorem claim_c4_witness :
    Reply.err "UNKNOWN_MESSAGE_TYPE" ∉
      (handle_message (fun _ => none) (fun _ => .ok) 0 sAuth "c"
        (.val (.obj [("type", .str "join_conversation"),
          ("data", .obj [("conversation_id", .str "r")])]))).2 ∧
    handle_request (fun _ => none) (fun _ => .ok) 0 sAuth "c"
      "JoinConversationRequest" (.obj [("conversation_id", .str "r")]) =
      ⟨sAuth, [], true⟩ := by
  refine ⟨?_, ?_⟩
  · exact (claim_c4_amended).2.1 "join_conversation" "JoinConversationRequest"
      rfl (fun _ => none) (fun _ => .ok) 0 sAuth "c" _ _ rfl rfl rfl
  · exact (claim_c4_amended).2.2 "JoinConversationRequest" (by decide)
      (fun _ => none) (fun _ => .ok) 0 sAuth "c" "u" _ rfl

/-- C6 counterexample: non-UTF-8 bytes raise `UnicodeDecodeError`, which
is not a `json.JSONDecodeError`, so the reply code is `SERVER_ERROR`, not
`INVALID_MESSAGE_FORMAT`; and an envelope with no `data` key at all is
not rejected at the shape check — `data` defaults to `{}` and the request
is dispatched: an unauthenticated connection sending only
`{"type": "logout"}` is answered `AUTHENTICATION_REQUIRED`, not
`INVALID_MESSAGE_FORMAT`. -/
theorem claim_c6_counterexample :
    handle_message (fun _ => none) (fun _ => .ok) 0 sAuth "c" .badUtf8 =
      (sAuth, [.err "SERVER_ERROR"]) ∧
    Reply.err "SERVER_ERROR" ≠ Reply.err "INVALID_MESSAGE_FORMAT" ∧
    handle_message (fun _ => none) (fun _ => .ok) 0
      ⟨[("c", newConnection)], [], [], []⟩ "c"
      (.val (.obj [("type", .str "logout")])) =
      (⟨[("c", newConnection)], [], [], []⟩, [.err "AUTHENTICATION_REQUIRED"]) ∧
    Reply.err "AUTHENTICATION_REQUIRED" ≠ Reply.err "INVALID_MESSAGE_FORMAT" := by
  exact ⟨rfl, by decide, rfl, by decide⟩

/-- C6 (amended): for valid-UTF-8 bytes that are not JSON, a non-object
top level, or an object with no `type` key, the dispatcher replies with
exactly one `INVALID_MESSAGE_FORMAT` envelope and mutates nothing;
non-UTF-8 bytes get exactly one `SERVER_ERROR` reply (outer `except`);
a present but non-string hashable `type` gets `UNKNOWN_MESSAGE_TYPE`, an
unhashable `type` (object/array) gets `SERVER_ERROR`; a payload that
fails validation — including any non-object `data` — gets exactly one
`INVALID_MESSAGE_FORMAT` reply; in all of these cases the registry state
is returned unchanged.  (A missing `data` key is NOT a shape error: it
defaults to `{}` and the envelope is dispatched — per the counterexample,
an unauthenticated `logout` without `data` is answered
`AUTHENTICATION_REQUIRED`.) -/
theorem claim_c6_amended (oracle : String → Option String) (svc : String → SvcRes)
    (now : Nat) (s : ManagerState) (cid : String) :
    handle_message oracle svc now s cid .badJson = (s, [.err "INVALID_MESSAGE_FORMAT"]) ∧
    handle_message oracle svc now s cid .badUtf8 = (s, [.err "SERVER_ERROR"]) ∧
    (∀ v, handle_message oracle svc now s cid (.val (.str v)) = (s, [.err "INVALID_MESSAGE_FORMAT"])) ∧
    (∀ n, handle_message oracle svc now s cid (.val (.num n)) = (s, [.err "INVALID_MESSAGE_FORMAT"])) ∧
    (∀ b, handle_message oracle svc now s cid (.val (.jbool b)) = (s, [.err "INVALID_MESSAGE_FORMAT"])) ∧
    handle_message oracle svc now s cid (.val .null) = (s, [.err "INVALID_MESSAGE_FORMAT"]) ∧
    (∀ elems, handle_message oracle svc now s cid (.val (.arr elems)) = (s, [.err "INVALID_MESSAGE_FORMAT"])) ∧
    (∀ fields, jGet fields "type" = none →
      handle_message oracle svc now s cid (.val (.obj fields)) = (s, [.err "INVALID_MESSAGE_FORMAT"])) ∧
    (∀ fields n, jGet fields "type" = some (.num n) →
      handle_message oracle svc now s cid (.val (.obj fields)) = (s, [.err "UNKNOWN_MESSAGE_TYPE"])) ∧
    (∀ fields elems, jGet fields "type" = some (.arr elems) →
      handle_message oracle svc now s cid (.val (.obj fields)) = (s, [.err "SERVER_ERROR"])) ∧
    (∀ fields mt cls d, jGet fields "type" = some mt → typeLookup mt = .ok (some cls) →
      (jGet fields "data").getD (.obj []) = d → validate cls d = false →
      handle_message oracle svc now s cid (.val (.obj fields)) = (s, [.err "INVALID_MESSAGE_FORMAT"])) := by
  refine ⟨rfl, rfl, fun v => rfl, fun n => rfl, fun b => rfl, rfl, fun elems => rfl,
    ?_, ?_, ?_, ?_⟩
  · intro fields hty
    unfold handle_message
    simp [hty]
  · intro fields n hty
    unfold handle_message
    simp [hty, typeLookup]
  · intro fields elems hty
    unfold handle_message
    simp [hty, typeLookup]
  · intro fields mt cls d hty hlk hd hv
    unfold handle_message
    simp [hty, hlk, hd, hv]

/-- Witness for C6 (amended): an envelope with no `type` key. -/
theorem claim_c6_witness :
    handle_message (fun _ => none) (fun _ => .ok) 0 sAuth "c"
      (.val (.obj [("x", .null)])) = (sAuth, [.err "INVALID_MESSAGE_FORMAT"]) :=
  (claim_c6_amended (fun _ => none) (fun _ => .ok) 0 sAuth "c").2.2.2.2.2.2.2.1
    [("x", .null)] rfl

/-- C7 (confirmed): `_require_auth` opens the one overload body that
singledispatch actually executes (all overloads collapse onto `str`), so
for EVERY request kind — in particular every kind other than
`authenticate` — a connection that is unknown or not currently
authenticated receives exactly one `AUTHENTICATION_REQUIRED` error
envelope from the handler itself, which performs no domain action and
returns the registry unchanged; and for a recognized, valid envelope the
dispatcher's whole reply is exactly that single error — so an
unauthenticated `send_message` in particular triggers no room
broadcast. -/
theorem claim_c7 (oracle : String → Option String) (svc : String → SvcRes)
    (now : Nat) (s : ManagerState) (cid : String)
    (hunauth : ∀ conn, dGet s.connections cid = some conn → is_authenticated conn = false) :
    (∀ cls data, handle_request oracle svc now s cid cls data =
      ⟨s, [.err "AUTHENTICATION_REQUIRED"], false⟩) ∧
    (∀ fields mt cls d, jGet fields "type" = some mt → typeLookup mt = .ok (some cls) →
      (jGet fields "data").getD (.obj []) = d → validate cls d = true →
      handle_message oracle svc now s cid (.val (.obj fields)) =
        (s, [.err "AUTHENTICATION_REQUIRED"])) := by
  have hra : require_auth s cid = .unauth := by
    unfold require_auth
    cases hg : dGet s.connections cid with
    | none => rfl
    | some conn => simp [hunauth conn hg]
  have h1 : ∀ cls data, handle_request oracle svc now s cid cls data =
      ⟨s, [.err "AUTHENTICATION_REQUIRED"], false⟩ := by
    intro cls data
    unfold handle_request
    rw [hra]
  refine ⟨h1, ?_⟩
  intro fields mt cls d hty hlk hd hv
  rw [handle_message_dispatch hty hlk hd hv, h1 cls d]
  rfl

/-- Witness for C7: an unauthenticated connection sending a valid
`send_message` envelope is answered exactly `AUTHENTICATION_REQUIRED`,
with the registry unchanged and no broadcast reply. -/
theorem claim_c7_witness :
    handle_message (fun _ => none) (fun _ => .ok) 0
      ⟨[("c", newConnection)], [], [], []⟩ "c"
      (.val (.obj [("type", .str "send_message"),
        ("data", .obj [("conversation_id", .str "r"), ("content", .str "hi")])])) =
      (⟨[("c", newConnection)], [], [], []⟩, [.err "AUTHENTICATION_REQUIRED"]) := by
  exact (claim_c7 (fun _ => none) (fun _ => .ok) 0
    ⟨[("c", newConnection)], [], [], []⟩ "c"
    (fun conn hconn => by
      have h : newConnection = conn := by simpa [dGet] using hconn
      rw [← h]
      decide)).2
    [("type", .str "send_message"),
      ("data", .obj [("conversation_id", .str "r"), ("content", .str "hi")])]
    (.str "send_message") "SendMessageRequest" _ rfl rfl rfl rfl

end Sockio
